import Mathlib

/-!
Shallow embedding of the net-watcher event store and its compaction job
(`internal/database/db.go`, `internal/database/models.go`,
`internal/database/publisher.go`, `internal/web/hub.go`, `main.go`),
together with proofs about the embedded operations.

Conventions of the embedding:
* timestamps are UTC instants in integer milliseconds (`Nat`);
* the store is the list of persisted rows plus the next auto-increment id;
* SQL `SELECT ... WHERE` becomes `List.filter`, `ORDER BY ... LIMIT 1`
  becomes a fold picking the minimum, row deletion by primary key becomes
  a filter on ids, and `ORDER BY dns_query, timestamp` becomes an
  insertion sort on that key (tie order between equal keys is unspecified
  in SQLite; the sort fixes one choice).
-/

namespace NetWatcher

/-- Event type tags, from `internal/database/models.go`.  (In Go the tag is
a string; only these eleven values are ever stored, so an inductive type is
used here.) -/
inductive EventType where
  | TCP_START
  | TCP_END
  | UDP_START
  | UDP_END
  | DNS
  | TLS_SNI
  | ICMP
  | TIMEOUT
  | TCP
  | UDP
  | HOURLY
deriving DecidableEq, Repr

/-- A persisted row, from `NetworkEvent` in `internal/database/models.go`.
Field defaults are the Go zero values used by struct literals. -/
structure NetworkEvent where
  id : Nat := 0
  timestamp : Nat := 0
  eventType : EventType := .DNS
  interface : String := ""
  ipVersion : Nat := 0
  srcIP : String := ""
  srcPort : Nat := 0
  dstIP : String := ""
  dstPort : Nat := 0
  dnsType : String := ""
  dnsQuery : String := ""
  dnsAnswers : String := ""
  dnsCNAMEs : String := ""
  tlsSNI : String := ""
  hostname : String := ""
  dnsAge : Nat := 0
  duration : Nat := 0
  byteCount : Nat := 0
  reason : String := ""
  endTime : Nat := 0
  icmpType : Nat := 0
  icmpCode : Nat := 0
  icmpDesc : String := ""
  protocol : String := ""
  compacted : Bool := false
  originalIDs : String := ""
  eventCount : Nat := 0
deriving DecidableEq, Repr

/-- The store: persisted rows plus the next auto-increment primary key. -/
structure DBState where
  rows : List NetworkEvent
  nextId : Nat
deriving DecidableEq, Repr

/-- `gorm.Create`: append the row with a fresh auto-increment id. -/
def DBState.create (st : DBState) (e : NetworkEvent) : DBState :=
  { rows := st.rows ++ [{ e with id := st.nextId }], nextId := st.nextId + 1 }

/-- `gorm.Delete` by primary key. -/
def DBState.deleteById (st : DBState) (i : Nat) : DBState :=
  { st with rows := st.rows.filter (fun e => e.id != i) }

/-- Little-endian decimal digit characters of `n`, with explicit fuel so
the kernel can evaluate it on closed inputs. -/
def decDigits (fuel n : Nat) : List Char :=
  match fuel with
  | 0 => []
  | fuel + 1 => if n = 0 then [] else Nat.digitChar (n % 10) :: decDigits fuel (n / 10)

/-- Decimal rendering of a natural number, as Go's `%d` verb prints it. -/
def natStr (n : Nat) : String :=
  if n = 0 then "0" else ⟨(decDigits n n).reverse⟩

/-- The `original_ids` audit string `fmt.Sprintf("%d,%d", a, b)`
(db.go:161, db.go:216, db.go:272). -/
def mkOriginalIDs (a b : Nat) : String :=
  natStr a ++ "," ++ natStr b

/-- One day in milliseconds (`24*time.Hour` in db.go:140). -/
def dayMs : Nat := 86400000

/-- Selection of TCP_START rows in `compactTCP` (db.go:124): type, cutoff
and not-already-compacted (`compacted = false OR compacted IS NULL`). -/
def tcpStartSel (olderThan : Nat) (e : NetworkEvent) : Bool :=
  e.eventType == .TCP_START && decide (e.timestamp < olderThan) && !e.compacted

/-- Match predicate for the end row of a TCP pair (db.go:136-141):
TCP_END or TIMEOUT, same 4-tuple, strictly inside `(ts, ts+24h)`. -/
def tcpEndMatch (s e : NetworkEvent) : Bool :=
  (e.eventType == .TCP_END || e.eventType == .TIMEOUT) &&
  e.srcIP == s.srcIP && e.srcPort == s.srcPort &&
  e.dstIP == s.dstIP && e.dstPort == s.dstPort &&
  decide (s.timestamp < e.timestamp) && decide (e.timestamp < s.timestamp + dayMs)

/-- Selection of UDP_START rows in `compactUDP` (db.go:183). -/
def udpStartSel (olderThan : Nat) (e : NetworkEvent) : Bool :=
  e.eventType == .UDP_START && decide (e.timestamp < olderThan) && !e.compacted

/-- Match predicate for the end row of a UDP pair (db.go:194-199). -/
def udpEndMatch (s e : NetworkEvent) : Bool :=
  e.eventType == .UDP_END &&
  e.srcIP == s.srcIP && e.srcPort == s.srcPort &&
  e.dstIP == s.dstIP && e.dstPort == s.dstPort &&
  decide (s.timestamp < e.timestamp) && decide (e.timestamp < s.timestamp + dayMs)

/-- Selection of DNS QUERY rows in `compactDNS` (db.go:237-238). -/
def dnsQuerySel (olderThan : Nat) (e : NetworkEvent) : Bool :=
  e.eventType == .DNS && e.dnsType == "QUERY" &&
  decide (e.timestamp < olderThan) && !e.compacted

/-- Match predicate for the RESPONSE row of a DNS pair (db.go:249-253):
same query name, strictly inside `(ts, ts+5s)`. -/
def dnsResponseMatch (s e : NetworkEvent) : Bool :=
  e.eventType == .DNS && e.dnsType == "RESPONSE" && e.dnsQuery == s.dnsQuery &&
  decide (s.timestamp < e.timestamp) && decide (e.timestamp < s.timestamp + 5000)

/-- `ORDER BY timestamp ASC ... First`: the first row of minimal timestamp
(first in row order among equal timestamps). -/
def firstByTimestamp : List NetworkEvent → Option NetworkEvent
  | [] => none
  | e :: rest =>
    match firstByTimestamp rest with
    | none => some e
    | some b => if b.timestamp < e.timestamp then some b else some e

/-- The earliest row of the current store matching the pair predicate. -/
def findEnd (matchE : NetworkEvent → NetworkEvent → Bool)
    (st : DBState) (s : NetworkEvent) : Option NetworkEvent :=
  firstByTimestamp (st.rows.filter (matchE s))

/-- The merged record built by `compactTCP` (db.go:145-162); unnamed fields
keep their Go zero values.  The id is assigned by `create`. -/
def mkCompactedTCP (s e : NetworkEvent) : NetworkEvent :=
  { timestamp := s.timestamp
    endTime := e.timestamp
    eventType := .TCP
    interface := s.interface
    ipVersion := s.ipVersion
    srcIP := s.srcIP
    srcPort := s.srcPort
    dstIP := s.dstIP
    dstPort := s.dstPort
    hostname := s.hostname
    dnsAge := s.dnsAge
    duration := e.duration
    byteCount := e.byteCount
    reason := e.reason
    compacted := true
    originalIDs := mkOriginalIDs s.id e.id }

/-- The merged record built by `compactUDP` (db.go:202-217). -/
def mkCompactedUDP (s e : NetworkEvent) : NetworkEvent :=
  { timestamp := s.timestamp
    endTime := e.timestamp
    eventType := .UDP
    interface := s.interface
    ipVersion := s.ipVersion
    srcIP := s.srcIP
    srcPort := s.srcPort
    dstIP := s.dstIP
    dstPort := s.dstPort
    protocol := s.protocol
    duration := e.duration
    byteCount := e.byteCount
    compacted := true
    originalIDs := mkOriginalIDs s.id e.id }

/-- The merged record built by `compactDNS` (db.go:256-273). -/
def mkCompactedDNS (s e : NetworkEvent) : NetworkEvent :=
  { timestamp := s.timestamp
    endTime := e.timestamp
    eventType := .DNS
    interface := s.interface
    ipVersion := s.ipVersion
    srcIP := s.srcIP
    srcPort := s.srcPort
    dstIP := s.dstIP
    dstPort := s.dstPort
    dnsType := "COMPLETE"
    dnsQuery := s.dnsQuery
    dnsAnswers := e.dnsAnswers
    dnsCNAMEs := e.dnsCNAMEs
    duration := e.timestamp - s.timestamp
    compacted := true
    originalIDs := mkOriginalIDs s.id e.id }

/-- One iteration of a pair-merge loop (db.go:130-175, 189-229, 244-285):
look up the earliest matching end row in the current store; when found,
create the merged record and delete the two sources, otherwise leave the
store unchanged. -/
def mergeStep (matchE : NetworkEvent → NetworkEvent → Bool)
    (mk : NetworkEvent → NetworkEvent → NetworkEvent)
    (st : DBState) (s : NetworkEvent) : DBState :=
  match findEnd matchE st s with
  | none => st
  | some e => ((st.create (mk s e)).deleteById s.id).deleteById e.id

/-- A pair-merge phase: snapshot the start rows, then fold the merge step
over the snapshot. -/
def pairMerge (sel : NetworkEvent → Bool)
    (matchE : NetworkEvent → NetworkEvent → Bool)
    (mk : NetworkEvent → NetworkEvent → NetworkEvent)
    (st : DBState) : DBState :=
  (st.rows.filter sel).foldl (mergeStep matchE mk) st

/-- `compactTCP` (db.go:121-178). -/
def compactTCP (olderThan : Nat) (st : DBState) : DBState :=
  pairMerge (tcpStartSel olderThan) tcpEndMatch mkCompactedTCP st

/-- `compactUDP` (db.go:181-232). -/
def compactUDP (olderThan : Nat) (st : DBState) : DBState :=
  pairMerge (udpStartSel olderThan) udpEndMatch mkCompactedUDP st

/-- `compactDNS` (db.go:235-288). -/
def compactDNS (olderThan : Nat) (st : DBState) : DBState :=
  pairMerge (dnsQuerySel olderThan) dnsResponseMatch mkCompactedDNS st

/-- Selection of the rows scanned by `deduplicateDNS` (db.go:293):
`event_type = DNS AND timestamp < olderThan`, nothing else. -/
def dnsDedupSel (olderThan : Nat) (e : NetworkEvent) : Bool :=
  e.eventType == .DNS && decide (e.timestamp < olderThan)

/-- Strict lexicographic comparison of character lists (the model of the
TEXT ordering used by `ORDER BY dns_query`), written structurally so the
kernel can evaluate it. -/
def charListLt : List Char → List Char → Bool
  | _, [] => false
  | [], _ :: _ => true
  | a :: as, b :: bs =>
    if a.toNat < b.toNat then true
    else if b.toNat < a.toNat then false
    else charListLt as bs

/-- Strict string comparison on the character data. -/
def strLtB (a b : String) : Bool := charListLt a.data b.data

/-- The `ORDER BY dns_query, timestamp` key as a relation. -/
def dnsKeyLe (a b : NetworkEvent) : Prop :=
  strLtB a.dnsQuery b.dnsQuery = true ∨
    (a.dnsQuery = b.dnsQuery ∧ a.timestamp ≤ b.timestamp)

instance : DecidableRel dnsKeyLe := fun a b => by
  unfold dnsKeyLe; infer_instance

theorem charListLt_trichotomy :
    ∀ l1 l2 : List Char, charListLt l1 l2 = true ∨ charListLt l2 l1 = true ∨ l1 = l2 := by
  intro l1
  induction l1 with
  | nil =>
    intro l2
    cases l2 with
    | nil => exact Or.inr (Or.inr rfl)
    | cons b bs => exact Or.inl rfl
  | cons a as ih =>
    intro l2
    cases l2 with
    | nil => exact Or.inr (Or.inl rfl)
    | cons b bs =>
      by_cases hab : a.toNat < b.toNat
      · exact Or.inl (by simp [charListLt, hab])
      · by_cases hba : b.toNat < a.toNat
        · exact Or.inr (Or.inl (by simp [charListLt, hba]))
        · have hva : a.toNat = a.val.toNat := rfl
          have hvb : b.toNat = b.val.toNat := rfl
          have hval : a = b := Char.ext (UInt32.ext (by omega))
          subst hval
          rcases ih bs with h | h | h
          · exact Or.inl (by simp [charListLt, h])
          · exact Or.inr (Or.inl (by simp [charListLt, h]))
          · exact Or.inr (Or.inr (by rw [h]))

theorem charListLt_trans :
    ∀ l1 l2 l3 : List Char, charListLt l1 l2 = true → charListLt l2 l3 = true →
      charListLt l1 l3 = true := by
  intro l1
  induction l1 with
  | nil =>
    intro l2 l3 h12 h23
    cases l3 with
    | nil =>
      cases l2 with
      | nil => simp [charListLt] at h12
      | cons b bs => simp [charListLt] at h23
    | cons c cs => rfl
  | cons a as ih =>
    intro l2 l3 h12 h23
    cases l2 with
    | nil => simp [charListLt] at h12
    | cons b bs =>
      cases l3 with
      | nil => simp [charListLt] at h23
      | cons c cs =>
        simp only [charListLt] at h12 h23 ⊢
        by_cases hab : a.toNat < b.toNat
        · by_cases hbc : b.toNat < c.toNat
          · rw [if_pos (by omega)]
          · rw [if_neg hbc] at h23
            by_cases hcb : c.toNat < b.toNat
            · rw [if_pos hcb] at h23
              exact absurd h23 (by simp)
            · rw [if_pos (by omega)]
        · rw [if_neg hab] at h12
          by_cases hba : b.toNat < a.toNat
          · rw [if_pos hba] at h12
            exact absurd h12 (by simp)
          · rw [if_neg hba] at h12
            by_cases hbc : b.toNat < c.toNat
            · rw [if_pos (by omega)]
            · rw [if_neg hbc] at h23
              by_cases hcb : c.toNat < b.toNat
              · rw [if_pos hcb] at h23
                exact absurd h23 (by simp)
              · rw [if_neg hcb] at h23
                rw [if_neg (by omega), if_neg (by omega)]
                exact ih bs cs h12 h23

theorem charListLt_irrefl : ∀ l : List Char, charListLt l l = false := by
  intro l
  induction l with
  | nil => rfl
  | cons a as ih => simp [charListLt, ih]

theorem strLtB_of_ne {a b : String} (h : a ≠ b) :
    strLtB a b = true ∨ strLtB b a = true := by
  rcases charListLt_trichotomy a.data b.data with h1 | h1 | h1
  · exact Or.inl h1
  · exact Or.inr h1
  · exact absurd (String.ext h1) h

instance : IsTotal NetworkEvent dnsKeyLe where
  total a b := by
    unfold dnsKeyLe
    by_cases he : a.dnsQuery = b.dnsQuery
    · rcases Nat.le_total a.timestamp b.timestamp with h' | h'
      · exact Or.inl (Or.inr ⟨he, h'⟩)
      · exact Or.inr (Or.inr ⟨he.symm, h'⟩)
    · rcases strLtB_of_ne he with h | h
      · exact Or.inl (Or.inl h)
      · exact Or.inr (Or.inl h)

theorem strLtB_ne {a b : String} (h : strLtB a b = true) : a ≠ b := by
  intro he
  subst he
  rw [strLtB, charListLt_irrefl] at h
  exact Bool.false_ne_true h

instance : IsTrans NetworkEvent dnsKeyLe where
  trans a b c hab hbc := by
    unfold dnsKeyLe at *
    rcases hab with h | ⟨he, ht⟩
    · rcases hbc with h' | ⟨he', _⟩
      · exact Or.inl (charListLt_trans _ _ _ h h')
      · exact Or.inl (he' ▸ h)
    · rcases hbc with h' | ⟨he', ht'⟩
      · exact Or.inl (he ▸ h')
      · exact Or.inr ⟨he.trans he', ht.trans ht'⟩

/-- The scan of `deduplicateDNS` (db.go:297-308): walk the sorted rows
keeping the last kept `(dns_query, timestamp)`; collect the ids of rows
whose query equals it and whose timestamp is within the window.  The
accumulator is `none` before the first row (the Go zero values `""` and
the zero `time.Time`, whose saturated distance to any row is never below
the window). -/
def dedupScan (window : Nat) : List NetworkEvent → Option (String × Nat) → List Nat
  | [], _ => []
  | e :: rest, none => dedupScan window rest (some (e.dnsQuery, e.timestamp))
  | e :: rest, some (q, t) =>
    if e.dnsQuery == q && decide (e.timestamp - t < window) then
      e.id :: dedupScan window rest (some (q, t))
    else
      dedupScan window rest (some (e.dnsQuery, e.timestamp))

/-- `deduplicateDNS` (db.go:291-317): scan the DNS rows older than the
cutoff in `(dns_query, timestamp)` order and delete the collected ids. -/
def deduplicateDNS (olderThan window : Nat) (st : DBState) : DBState :=
  let events := (st.rows.filter (dnsDedupSel olderThan)).insertionSort dnsKeyLe
  let toDelete := dedupScan window events none
  { st with rows := st.rows.filter (fun e => !(toDelete.contains e.id)) }

/-- The `EXISTS` subquery of `removeOrphanedEnds` (db.go:326-334,
db.go:344-352): an earlier start row of the given type on the same
4-tuple. -/
def hasEarlierStart (rows : List NetworkEvent) (startType : EventType)
    (e : NetworkEvent) : Bool :=
  rows.any (fun s =>
    s.eventType == startType &&
    s.srcIP == e.srcIP && s.srcPort == e.srcPort &&
    s.dstIP == e.dstIP && s.dstPort == e.dstPort &&
    decide (s.timestamp < e.timestamp))

/-- `removeOrphanedEnds` (db.go:320-358): two DELETE statements, first for
TCP_END and then for UDP_END rows older than the cutoff with no earlier
matching start. -/
def removeOrphanedEnds (olderThan : Nat) (st : DBState) : DBState :=
  let r1 := st.rows.filter (fun e =>
    !(e.eventType == .TCP_END && decide (e.timestamp < olderThan) &&
      !hasEarlierStart st.rows .TCP_START e))
  let r2 := r1.filter (fun e =>
    !(e.eventType == .UDP_END && decide (e.timestamp < olderThan) &&
      !hasEarlierStart r1 .UDP_START e))
  { st with rows := r2 }

/-- `Compact` (db.go:81-118): the five row-changing phases in order.  The
transfer-statistics step only reads and `VACUUM` does not change rows, so
neither appears in the row-level model. -/
def compact (olderThan window : Nat) (st : DBState) : DBState :=
  let st1 := compactTCP olderThan st
  let st2 := compactUDP olderThan st1
  let st3 := compactDNS olderThan st2
  let st4 := if 0 < window then deduplicateDNS olderThan window st3 else st3
  removeOrphanedEnds olderThan st4

/-- One hour in milliseconds. -/
def hourMs : Nat := 3600000

/-- The hour bucket of a timestamp, as the instant of the hour boundary
(the model of `strftime('%Y-%m-%d %H:00:00', timestamp)`, which is in
bijection with the hour boundary instant). -/
def hourOf (ts : Nat) : Nat := ts / hourMs * hourMs

/-- Membership of a row in an `(hour, interface, ip_version)` bucket. -/
def inBucket (hour : Nat) (intf : String) (ipv : Nat) (e : NetworkEvent) : Bool :=
  hourOf e.timestamp == hour && e.interface == intf && e.ipVersion == ipv

/-- `event_type LIKE 'TCP%'` over the stored tags. -/
def isTCPLike (t : EventType) : Bool :=
  t == .TCP || t == .TCP_START || t == .TCP_END

/-- `event_type LIKE 'UDP%'` over the stored tags. -/
def isUDPLike (t : EventType) : Bool :=
  t == .UDP || t == .UDP_START || t == .UDP_END

/-- Helper of `dedupFirst`: drop keys already seen. -/
def dedupFirstAux (seen : List (Nat × String × Nat)) :
    List (Nat × String × Nat) → List (Nat × String × Nat)
  | [] => []
  | k :: rest =>
    if seen.contains k then dedupFirstAux seen rest
    else k :: dedupFirstAux (k :: seen) rest

/-- First-occurrence deduplication, modelling the distinct groups returned
by `GROUP BY hour, interface, ip_version` (db.go:370-374). -/
def dedupFirst (l : List (Nat × String × Nat)) : List (Nat × String × Nat) :=
  dedupFirstAux [] l

/-- The distinct buckets holding rows older than the cutoff whose type is
neither HOURLY nor TCP (db.go:370-374; note the compacted `TCP` rows are
excluded from the bucket selection). -/
def hourlyKeys (olderThan : Nat) (rows : List NetworkEvent) : List (Nat × String × Nat) :=
  dedupFirst ((rows.filter (fun e =>
    decide (e.timestamp < olderThan) &&
    e.eventType != .HOURLY && e.eventType != .TCP)).map
      (fun e => (hourOf e.timestamp, e.interface, e.ipVersion)))

/-- The `protocol` breakdown string of a summary row (db.go:414). -/
def breakdown (tcp udp dns tls icmp : Nat) : String :=
  "TCP:" ++ natStr tcp ++ ",UDP:" ++ natStr udp ++ ",DNS:" ++ natStr dns ++
  ",TLS:" ++ natStr tls ++ ",ICMP:" ++ natStr icmp

/-- The body of the bucket loop of `CreateHourlySummary` (db.go:376-428):
count the bucket's rows per class over the whole hour (the count queries
carry no cutoff), skip the bucket when the total is zero, otherwise append
one HOURLY row and delete every non-HOURLY row of the bucket. -/
def hourlyStep (acc : DBState × Nat) (k : Nat × String × Nat) : DBState × Nat :=
  let st := acc.1
  let bucket := fun e => inBucket k.1 k.2.1 k.2.2 e
  let tcpCount := (st.rows.filter (fun e => bucket e && isTCPLike e.eventType)).length
  let udpCount := (st.rows.filter (fun e => bucket e && isUDPLike e.eventType)).length
  let dnsCount := (st.rows.filter (fun e => bucket e && e.eventType == .DNS)).length
  let tlsCount := (st.rows.filter (fun e => bucket e && e.eventType == .TLS_SNI)).length
  let icmpCount := (st.rows.filter (fun e => bucket e && e.eventType == .ICMP)).length
  let total := tcpCount + udpCount + dnsCount + tlsCount + icmpCount
  if total = 0 then acc
  else
    let st1 := st.create
      { timestamp := k.1
        eventType := .HOURLY
        interface := k.2.1
        ipVersion := k.2.2
        eventCount := total
        protocol := breakdown tcpCount udpCount dnsCount tlsCount icmpCount
        compacted := true }
    ({ st1 with rows := st1.rows.filter (fun e => !(bucket e && e.eventType != .HOURLY)) },
     acc.2 + 1)

/-- `CreateHourlySummary` (db.go:361-431), returning the new store and the
number of summaries created. -/
def createHourlySummary (olderThan : Nat) (st : DBState) : DBState × Nat :=
  (hourlyKeys olderThan st.rows).foldl hourlyStep (st, 0)

/-- The counts printed by the dry-run preview (main.go:486-557). -/
structure CompactPreview where
  tcpStarts : Nat
  tcpEnds : Nat
  udpStarts : Nat
  udpEnds : Nat
  dnsQueries : Nat
  dnsResponses : Nat
  duplicateEstimate : Nat
  distinctHours : Nat
deriving DecidableEq, Repr

/-- The raw duplicate-estimate query of the preview (main.go:506-515). -/
def dupEstimate (olderThan window : Nat) (rows : List NetworkEvent) : Nat :=
  (rows.filter (fun e1 =>
    e1.eventType == .DNS && decide (e1.timestamp < olderThan) &&
    rows.any (fun e2 =>
      e2.dnsQuery == e1.dnsQuery && decide (e2.id < e1.id) &&
      decide (e1.timestamp - window < e2.timestamp)))).length

/-- `showCompactionPreview` (main.go:486-557): a read-only report; the
duplicate estimate is computed only when the window is positive and the
distinct-hours count only when the hourly flag is set (the model returns 0
for a count the Go code does not compute). -/
def showCompactionPreview (olderThan window : Nat) (hourlySummary : Bool)
    (st : DBState) : CompactPreview :=
  { tcpStarts := (st.rows.filter (fun e =>
      e.eventType == .TCP_START && decide (e.timestamp < olderThan))).length
    tcpEnds := (st.rows.filter (fun e =>
      (e.eventType == .TCP_END || e.eventType == .TIMEOUT) &&
      decide (e.timestamp < olderThan))).length
    udpStarts := (st.rows.filter (fun e =>
      e.eventType == .UDP_START && decide (e.timestamp < olderThan))).length
    udpEnds := (st.rows.filter (fun e =>
      e.eventType == .UDP_END && decide (e.timestamp < olderThan))).length
    dnsQueries := (st.rows.filter (fun e =>
      e.eventType == .DNS && e.dnsType == "QUERY" &&
      decide (e.timestamp < olderThan))).length
    dnsResponses := (st.rows.filter (fun e =>
      e.eventType == .DNS && e.dnsType == "RESPONSE" &&
      decide (e.timestamp < olderThan))).length
    duplicateEstimate := if 0 < window then dupEstimate olderThan window st.rows else 0
    distinctHours := if hourlySummary then
      (dedupFirst ((st.rows.filter (fun e =>
        decide (e.timestamp < olderThan))).map
          (fun e => (hourOf e.timestamp, "", 0)))).length
    else 0 }

/-- `runCompact` (main.go:421-484) after flag parsing: on dry-run only the
preview is produced and the store is returned as opened; otherwise the
compaction runs and, when requested, the hourly summary runs after it. -/
def runCompact (olderThan window : Nat) (hourlySummary dryRun : Bool)
    (st : DBState) : DBState × Option CompactPreview :=
  if dryRun then (st, some (showCompactionPreview olderThan window hourlySummary st))
  else
    let st1 := compact olderThan window st
    let st2 := if hourlySummary then (createHourlySummary olderThan st1).1 else st1
    (st2, none)

/-- The WebSocket hub (hub.go): the registered client count and the bounded
broadcast queue (`make(chan []byte, 256)`).  JSON marshaling is abstracted:
the queue holds the events themselves. -/
structure HubState where
  clients : Nat
  broadcast : List NetworkEvent
  capacity : Nat
deriving DecidableEq, Repr

/-- `Hub.PublishEvent` (hub.go:175-195): with no connected client the event
is ignored; the channel send is a non-blocking `select` with a `default`
branch, so a full queue drops the event instead of waiting. -/
def hubPublishEvent (h : HubState) (e : NetworkEvent) : HubState :=
  if h.clients == 0 then h
  else if h.broadcast.length < h.capacity then
    { h with broadcast := h.broadcast ++ [e] }
  else h

/-- The process state seen by the publisher bridge: the store and the
one-slot global publisher of `publisher.go`. -/
structure World where
  db : DBState
  globalPublisher : Option HubState
deriving DecidableEq, Repr

/-- `SetEventPublisher` (publisher.go:14-16): the single global slot is
overwritten. -/
def setEventPublisher (w : World) (h : HubState) : World :=
  { w with globalPublisher := some h }

/-- `PublishEvent` (publisher.go:19-23): a no-op when no subscriber is
registered. -/
def publishEvent (w : World) (e : NetworkEvent) : World :=
  match w.globalPublisher with
  | none => w
  | some h => { w with globalPublisher := some (hubPublishEvent h e) }

/-- `InsertEvent` (db.go:52-55): a single `gorm.Create`.  The body does not
call the publisher bridge. -/
def insertEvent (w : World) (e : NetworkEvent) : World :=
  { w with db := w.db.create e }

/-- The PRAGMA statements `New` executes at open (db.go:32-34). -/
def openPragmas : List (String × String) :=
  [("journal_mode", "WAL"), ("synchronous", "NORMAL"), ("cache_size", "2000")]

/-- `New` (db.go:20-41): opening a missing file creates an empty store with
the schema migrated (auto-increment ids start at 1); opening an existing
store only migrates it.  Paired with the pragma list it applies. -/
def newDB (existing : Option DBState) : DBState × List (String × String) :=
  (match existing with
   | none => { rows := [], nextId := 1 }
   | some st => st,
   openPragmas)

/-- All row ids are below the auto-increment counter. -/
def Fresh (st : DBState) : Prop :=
  ∀ e ∈ st.rows, e.id < st.nextId

/-- Row ids are pairwise distinct (primary-key uniqueness). -/
def NodupIds (st : DBState) : Prop :=
  (st.rows.map (fun e => e.id)).Nodup

/-- Rows synthesized by any merge phase: compacted, of a merged type, and
never of an end-row or response shape. -/
def Synth (e : NetworkEvent) : Prop :=
  e.compacted = true ∧
  (e.eventType = .TCP ∨ e.eventType = .UDP ∨
    (e.eventType = .DNS ∧ e.dnsType = "COMPLETE"))

instance (st : DBState) : Decidable (Fresh st) := by
  unfold Fresh; infer_instance

instance (st : DBState) : Decidable (NodupIds st) := by
  unfold NodupIds; infer_instance

instance (e : NetworkEvent) : Decidable (Synth e) := by
  unfold Synth; infer_instance

theorem decDigits_eq (n : Nat) :
    ∀ fuel, n ≤ fuel → decDigits fuel n = (Nat.digits 10 n).map Nat.digitChar := by
  induction n using Nat.strong_induction_on with
  | _ n ih =>
    intro fuel hf
    match fuel with
    | 0 =>
      have h0 : n = 0 := Nat.le_zero.mp hf
      subst h0
      simp [decDigits]
    | fuel + 1 =>
      by_cases h0 : n = 0
      · subst h0
        simp [decDigits]
      · rw [decDigits, if_neg h0,
          Nat.digits_def' (by norm_num : 1 < 10) (Nat.pos_of_ne_zero h0), List.map_cons]
        have hlt : n / 10 < n := Nat.div_lt_self (Nat.pos_of_ne_zero h0) (by norm_num)
        rw [ih (n / 10) hlt fuel (by omega)]

theorem natStr_data (n : Nat) :
    (natStr n).data =
      if n = 0 then ['0'] else ((Nat.digits 10 n).map Nat.digitChar).reverse := by
  by_cases h0 : n = 0
  · simp [natStr, h0]
  · simp [natStr, h0, decDigits_eq n n (Nat.le_refl n)]

theorem digitChar_ne_comma : ∀ d, d < 10 → Nat.digitChar d ≠ ',' := by decide

theorem digitChar_inj_lt :
    ∀ a, a < 10 → ∀ b, b < 10 → Nat.digitChar a = Nat.digitChar b → a = b := by decide

theorem comma_not_mem_natStr (n : Nat) : ',' ∉ (natStr n).data := by
  rw [natStr_data]
  by_cases h0 : n = 0
  · simp [h0]
  · rw [if_neg h0]
    intro hmem
    rw [List.mem_reverse, List.mem_map] at hmem
    obtain ⟨d, hd, hc⟩ := hmem
    exact digitChar_ne_comma d (Nat.digits_lt_base (by norm_num) hd) hc

theorem map_digitChar_inj :
    ∀ l1 l2 : List Nat, (∀ d ∈ l1, d < 10) → (∀ d ∈ l2, d < 10) →
      l1.map Nat.digitChar = l2.map Nat.digitChar → l1 = l2 := by
  intro l1
  induction l1 with
  | nil =>
    intro l2 _ _ h
    cases l2 with
    | nil => rfl
    | cons b t => simp at h
  | cons a t1 ih =>
    intro l2 h1 h2 h
    cases l2 with
    | nil => simp at h
    | cons b t2 =>
      simp only [List.map_cons, List.cons.injEq] at h
      have ha : a = b :=
        digitChar_inj_lt a (h1 a (by simp)) b (h2 b (by simp)) h.1
      have ht : t1 = t2 :=
        ih t2 (fun d hd => h1 d (by simp [hd])) (fun d hd => h2 d (by simp [hd])) h.2
      rw [ha, ht]

theorem natStr_inj : ∀ a b : Nat, natStr a = natStr b → a = b := by
  intro a b h
  have hd : (natStr a).data = (natStr b).data := congrArg String.data h
  rw [natStr_data, natStr_data] at hd
  by_cases ha : a = 0 <;> by_cases hb : b = 0
  · rw [ha, hb]
  · rw [if_pos ha, if_neg hb] at hd
    have hlen : 1 = ((Nat.digits 10 b).map Nat.digitChar).reverse.length :=
      congrArg List.length hd
    rw [List.length_reverse, List.length_map] at hlen
    obtain ⟨d, hdig⟩ := List.length_eq_one.mp hlen.symm
    have hofb : Nat.ofDigits 10 (Nat.digits 10 b) = b := Nat.ofDigits_digits 10 b
    rw [hdig] at hofb
    simp [Nat.ofDigits] at hofb
    have hchar : Nat.digitChar d = '0' := by
      rw [hdig] at hd
      simpa using hd.symm
    have hd10 : d < 10 := Nat.digits_lt_base (by norm_num) (hdig ▸ (by simp : d ∈ [d]))
    have : d = 0 := digitChar_inj_lt d hd10 0 (by norm_num) hchar
    omega
  · rw [if_neg ha, if_pos hb] at hd
    have hlen : ((Nat.digits 10 a).map Nat.digitChar).reverse.length = 1 :=
      congrArg List.length hd
    rw [List.length_reverse, List.length_map] at hlen
    obtain ⟨d, hdig⟩ := List.length_eq_one.mp hlen
    have hofa : Nat.ofDigits 10 (Nat.digits 10 a) = a := Nat.ofDigits_digits 10 a
    rw [hdig] at hofa
    simp [Nat.ofDigits] at hofa
    have hchar : Nat.digitChar d = '0' := by
      rw [hdig] at hd
      simpa using hd
    have hd10 : d < 10 := Nat.digits_lt_base (by norm_num) (hdig ▸ (by simp : d ∈ [d]))
    have : d = 0 := digitChar_inj_lt d hd10 0 (by norm_num) hchar
    omega
  · rw [if_neg ha, if_neg hb] at hd
    have := List.reverse_injective hd
    have hdig := map_digitChar_inj _ _
      (fun d hdm => Nat.digits_lt_base (by norm_num) hdm)
      (fun d hdm => Nat.digits_lt_base (by norm_num) hdm) this
    calc a = Nat.ofDigits 10 (Nat.digits 10 a) := (Nat.ofDigits_digits 10 a).symm
    _ = Nat.ofDigits 10 (Nat.digits 10 b) := by rw [hdig]
    _ = b := Nat.ofDigits_digits 10 b

theorem append_comma_inj :
    ∀ l1 l3 l2 l4 : List Char, ',' ∉ l1 → ',' ∉ l3 →
      l1 ++ ',' :: l2 = l3 ++ ',' :: l4 → l1 = l3 ∧ l2 = l4 := by
  intro l1
  induction l1 with
  | nil =>
    intro l3 l2 l4 _ h3 h
    cases l3 with
    | nil => simpa using h
    | cons c t =>
      simp only [List.nil_append, List.cons_append, List.cons.injEq] at h
      exact absurd (h.1 ▸ List.mem_cons_self c t) h3
  | cons a t ih =>
    intro l3 l2 l4 h1 h3 h
    cases l3 with
    | nil =>
      simp only [List.nil_append, List.cons_append, List.cons.injEq] at h
      exact absurd (h.1 ▸ List.mem_cons_self a t) h1
    | cons c t3 =>
      simp only [List.cons_append, List.cons.injEq] at h
      have := ih t3 l2 l4 (fun hm => h1 (List.mem_cons_of_mem a hm))
        (fun hm => h3 (List.mem_cons_of_mem c hm)) h.2
      exact ⟨by rw [h.1, this.1], this.2⟩

theorem string_data_append (s t : String) : (s ++ t).data = s.data ++ t.data := rfl

theorem mkOriginalIDs_inj :
    ∀ a b c d : Nat, mkOriginalIDs a b = mkOriginalIDs c d → a = c ∧ b = d := by
  intro a b c d h
  have hd : (natStr a).data ++ ',' :: (natStr b).data =
      (natStr c).data ++ ',' :: (natStr d).data := by
    have := congrArg String.data h
    simpa [mkOriginalIDs, string_data_append] using this
  have := append_comma_inj _ _ _ _ (comma_not_mem_natStr a) (comma_not_mem_natStr c) hd
  exact ⟨natStr_inj a c (String.ext this.1), natStr_inj b d (String.ext this.2)⟩

theorem filter_singleton_pos {α : Type} {p : α → Bool} {a : α} (h : p a = true) :
    List.filter p [a] = [a] := by
  simp [h]

theorem mem_create {st : DBState} {e x : NetworkEvent} :
    x ∈ (st.create e).rows ↔ x ∈ st.rows ∨ x = { e with id := st.nextId } := by
  simp [DBState.create]

theorem mem_deleteById {st : DBState} {i : Nat} {x : NetworkEvent} :
    x ∈ (st.deleteById i).rows ↔ x ∈ st.rows ∧ x.id ≠ i := by
  simp [DBState.deleteById]

theorem firstByTimestamp_eq_none_iff (l : List NetworkEvent) :
    firstByTimestamp l = none ↔ l = [] := by
  cases l with
  | nil => simp [firstByTimestamp]
  | cons e rest =>
    simp only [firstByTimestamp]
    constructor
    · intro h
      cases hr : firstByTimestamp rest with
      | none => rw [hr] at h; simp at h
      | some b => rw [hr] at h; by_cases hb : b.timestamp < e.timestamp <;> simp [hb] at h
    · intro h; simp at h

theorem firstByTimestamp_mem :
    ∀ (l : List NetworkEvent) (b : NetworkEvent), firstByTimestamp l = some b → b ∈ l := by
  intro l
  induction l with
  | nil => intro b h; simp [firstByTimestamp] at h
  | cons e rest ih =>
    intro b h
    simp only [firstByTimestamp] at h
    cases hr : firstByTimestamp rest with
    | none =>
      rw [hr] at h
      replace h : some e = some b := h
      simp at h
      simp [h]
    | some c =>
      rw [hr] at h
      replace h : (if c.timestamp < e.timestamp then some c else some e) = some b := h
      by_cases hc : c.timestamp < e.timestamp
      · rw [if_pos hc] at h
        simp at h
        exact List.mem_cons_of_mem e (h ▸ ih c hr)
      · rw [if_neg hc] at h
        simp at h
        simp [h]

theorem firstByTimestamp_min :
    ∀ (l : List NetworkEvent) (b : NetworkEvent), firstByTimestamp l = some b →
      ∀ x ∈ l, b.timestamp ≤ x.timestamp := by
  intro l
  induction l with
  | nil => intro b h; simp [firstByTimestamp] at h
  | cons e rest ih =>
    intro b h x hx
    simp only [firstByTimestamp] at h
    cases hr : firstByTimestamp rest with
    | none =>
      rw [hr] at h
      replace h : some e = some b := h
      simp at h
      have : rest = [] := (firstByTimestamp_eq_none_iff rest).mp hr
      subst this
      simp at hx
      rw [hx, ← h]
    | some c =>
      rw [hr] at h
      replace h : (if c.timestamp < e.timestamp then some c else some e) = some b := h
      rcases List.mem_cons.mp hx with hxe | hxr
      · by_cases hc : c.timestamp < e.timestamp
        · rw [if_pos hc] at h; simp at h; subst h; subst hxe; omega
        · rw [if_neg hc] at h; simp at h; subst h; subst hxe; omega
      · by_cases hc : c.timestamp < e.timestamp
        · rw [if_pos hc] at h; simp at h; subst h; exact ih c hr x hxr
        · rw [if_neg hc] at h
          simp at h
          subst h
          have := ih c hr x hxr
          omega

theorem findEnd_none_iff (m : NetworkEvent → NetworkEvent → Bool) (st : DBState)
    (s : NetworkEvent) :
    findEnd m st s = none ↔ ∀ e ∈ st.rows, m s e = false := by
  rw [findEnd, firstByTimestamp_eq_none_iff, List.filter_eq_nil_iff]
  constructor
  · intro h e he
    by_cases hm : m s e = true
    · exact absurd hm (h e he)
    · simpa using hm
  · intro h e he
    simp [h e he]

theorem findEnd_some {m : NetworkEvent → NetworkEvent → Bool} {st : DBState}
    {s e : NetworkEvent} (h : findEnd m st s = some e) :
    e ∈ st.rows ∧ m s e = true ∧
      ∀ x ∈ st.rows, m s x = true → e.timestamp ≤ x.timestamp := by
  have hmem := firstByTimestamp_mem _ _ h
  rw [List.mem_filter] at hmem
  refine ⟨hmem.1, hmem.2, ?_⟩
  intro x hx hmx
  exact firstByTimestamp_min _ _ h x (List.mem_filter.mpr ⟨hx, hmx⟩)

theorem findEnd_mono {m : NetworkEvent → NetworkEvent → Bool} {X Y : DBState}
    {s : NetworkEvent}
    (hgrow : ∀ x ∈ Y.rows, x ∈ X.rows ∨ Synth x)
    (hm : ∀ x, Synth x → m s x = false)
    (h : findEnd m X s = none) : findEnd m Y s = none := by
  rw [findEnd_none_iff] at h ⊢
  intro e he
  rcases hgrow e he with hx | hs
  · exact h e hx
  · exact hm e hs

theorem synth_id {e : NetworkEvent} {n : Nat} : Synth { e with id := n } ↔ Synth e :=
  Iff.rfl

theorem mkCompactedTCP_synth (s e : NetworkEvent) : Synth (mkCompactedTCP s e) :=
  ⟨rfl, Or.inl rfl⟩

theorem mkCompactedUDP_synth (s e : NetworkEvent) : Synth (mkCompactedUDP s e) :=
  ⟨rfl, Or.inr (Or.inl rfl)⟩

theorem mkCompactedDNS_synth (s e : NetworkEvent) : Synth (mkCompactedDNS s e) :=
  ⟨rfl, Or.inr (Or.inr ⟨rfl, rfl⟩)⟩

theorem synth_not_tcpEndMatch (s x : NetworkEvent) (h : Synth x) :
    tcpEndMatch s x = false := by
  rcases h.2 with ht | ht | ⟨ht, _⟩ <;> simp [tcpEndMatch, ht]

theorem synth_not_udpEndMatch (s x : NetworkEvent) (h : Synth x) :
    udpEndMatch s x = false := by
  rcases h.2 with ht | ht | ⟨ht, _⟩ <;> simp [udpEndMatch, ht]

theorem synth_not_dnsResponseMatch (s x : NetworkEvent) (h : Synth x) :
    dnsResponseMatch s x = false := by
  rcases h.2 with ht | ht | ⟨ht, hq⟩
  · simp [dnsResponseMatch, ht]
  · simp [dnsResponseMatch, ht]
  · simp [dnsResponseMatch, ht, hq]

theorem synth_not_tcpStartSel (c : Nat) (x : NetworkEvent) (h : Synth x) :
    tcpStartSel c x = false := by
  simp [tcpStartSel, h.1]

theorem synth_not_udpStartSel (c : Nat) (x : NetworkEvent) (h : Synth x) :
    udpStartSel c x = false := by
  simp [udpStartSel, h.1]

theorem synth_not_dnsQuerySel (c : Nat) (x : NetworkEvent) (h : Synth x) :
    dnsQuerySel c x = false := by
  simp [dnsQuerySel, h.1]

theorem mergeStep_grow {m : NetworkEvent → NetworkEvent → Bool}
    {mk : NetworkEvent → NetworkEvent → NetworkEvent}
    (hmk : ∀ s e, Synth (mk s e)) {st : DBState} {s x : NetworkEvent}
    (h : x ∈ (mergeStep m mk st s).rows) : x ∈ st.rows ∨ Synth x := by
  rw [mergeStep] at h
  cases he : findEnd m st s with
  | none => rw [he] at h; exact Or.inl h
  | some e =>
    rw [he] at h
    rw [mem_deleteById, mem_deleteById, mem_create] at h
    rcases h.1.1 with hx | hx
    · exact Or.inl hx
    · exact Or.inr (hx ▸ synth_id.mpr (hmk s e))

theorem foldl_mergeStep_grow {m : NetworkEvent → NetworkEvent → Bool}
    {mk : NetworkEvent → NetworkEvent → NetworkEvent}
    (hmk : ∀ s e, Synth (mk s e)) :
    ∀ (snap : List NetworkEvent) (st : DBState) (x : NetworkEvent),
      x ∈ (snap.foldl (mergeStep m mk) st).rows → x ∈ st.rows ∨ Synth x := by
  intro snap
  induction snap with
  | nil => intro st x h; exact Or.inl h
  | cons a rest ih =>
    intro st x h
    rw [List.foldl_cons] at h
    rcases ih (mergeStep m mk st a) x h with hx | hs
    · exact mergeStep_grow hmk hx
    · exact Or.inr hs

theorem mergeStep_nextId_le {m : NetworkEvent → NetworkEvent → Bool}
    {mk : NetworkEvent → NetworkEvent → NetworkEvent} (st : DBState) (s : NetworkEvent) :
    st.nextId ≤ (mergeStep m mk st s).nextId := by
  rw [mergeStep]
  cases findEnd m st s with
  | none => exact Nat.le_refl _
  | some e => exact Nat.le_succ _

theorem foldl_mergeStep_nextId_le {m : NetworkEvent → NetworkEvent → Bool}
    {mk : NetworkEvent → NetworkEvent → NetworkEvent} :
    ∀ (snap : List NetworkEvent) (st : DBState),
      st.nextId ≤ (snap.foldl (mergeStep m mk) st).nextId := by
  intro snap
  induction snap with
  | nil => intro st; exact Nat.le_refl _
  | cons a rest ih =>
    intro st
    rw [List.foldl_cons]
    exact Nat.le_trans (mergeStep_nextId_le st a) (ih (mergeStep m mk st a))

theorem fresh_mergeStep {m : NetworkEvent → NetworkEvent → Bool}
    {mk : NetworkEvent → NetworkEvent → NetworkEvent} {st : DBState} {s : NetworkEvent}
    (hf : Fresh st) : Fresh (mergeStep m mk st s) := by
  rw [mergeStep]
  cases he : findEnd m st s with
  | none => exact hf
  | some e =>
    intro x hx
    rw [mem_deleteById, mem_deleteById, mem_create] at hx
    simp only [DBState.deleteById, DBState.create]
    rcases hx.1.1 with hm | hm
    · exact Nat.lt_succ_of_lt (hf x hm)
    · rw [hm]; exact Nat.lt_succ_self _

theorem nodup_mergeStep {m : NetworkEvent → NetworkEvent → Bool}
    {mk : NetworkEvent → NetworkEvent → NetworkEvent} {st : DBState} {s : NetworkEvent}
    (hf : Fresh st) (hn : NodupIds st) : NodupIds (mergeStep m mk st s) := by
  rw [mergeStep]
  cases he : findEnd m st s with
  | none => exact hn
  | some e =>
    have h1 : NodupIds (st.create (mk s e)) := by
      simp only [NodupIds, DBState.create]
      rw [List.map_append, List.map_singleton]
      rw [List.nodup_append]
      refine ⟨hn, List.nodup_singleton _, ?_⟩
      intro i hi
      simp only [List.mem_map] at hi
      obtain ⟨y, hy, hyi⟩ := hi
      simp only [List.mem_singleton]
      intro hcontra
      have := hf y hy
      omega
    have h2 : NodupIds ((st.create (mk s e)).deleteById s.id) := by
      simp only [NodupIds, DBState.deleteById]
      exact List.Nodup.sublist (List.Sublist.map _ (List.filter_sublist _)) h1
    simp only [NodupIds, DBState.deleteById]
    exact List.Nodup.sublist (List.Sublist.map _ (List.filter_sublist _)) h2

theorem fresh_foldl_mergeStep {m : NetworkEvent → NetworkEvent → Bool}
    {mk : NetworkEvent → NetworkEvent → NetworkEvent} :
    ∀ (snap : List NetworkEvent) (st : DBState), Fresh st →
      Fresh (snap.foldl (mergeStep m mk) st) := by
  intro snap
  induction snap with
  | nil => intro st hf; exact hf
  | cons a rest ih =>
    intro st hf
    rw [List.foldl_cons]
    exact ih _ (fresh_mergeStep hf)

theorem nodup_foldl_mergeStep {m : NetworkEvent → NetworkEvent → Bool}
    {mk : NetworkEvent → NetworkEvent → NetworkEvent} :
    ∀ (snap : List NetworkEvent) (st : DBState), Fresh st → NodupIds st →
      NodupIds (snap.foldl (mergeStep m mk) st) := by
  intro snap
  induction snap with
  | nil => intro st _ hn; exact hn
  | cons a rest ih =>
    intro st hf hn
    rw [List.foldl_cons]
    exact ih _ (fresh_mergeStep hf) (nodup_mergeStep hf hn)

theorem deduplicateDNS_rows (c w : Nat) (st : DBState) :
    (deduplicateDNS c w st).rows =
      st.rows.filter (fun e =>
        !((dedupScan w ((st.rows.filter (dnsDedupSel c)).insertionSort dnsKeyLe)
            none).contains e.id)) := rfl

theorem deduplicateDNS_nextId (c w : Nat) (st : DBState) :
    (deduplicateDNS c w st).nextId = st.nextId := rfl

theorem deduplicateDNS_mem {c w : Nat} {st : DBState} {x : NetworkEvent}
    (h : x ∈ (deduplicateDNS c w st).rows) : x ∈ st.rows := by
  rw [deduplicateDNS_rows] at h
  exact List.mem_of_mem_filter h

theorem removeOrphanedEnds_nextId (c : Nat) (st : DBState) :
    (removeOrphanedEnds c st).nextId = st.nextId := rfl

theorem removeOrphanedEnds_mem {c : Nat} {st : DBState} {x : NetworkEvent}
    (h : x ∈ (removeOrphanedEnds c st).rows) : x ∈ st.rows := by
  simp only [removeOrphanedEnds] at h
  exact List.mem_of_mem_filter (List.mem_of_mem_filter h)

theorem fresh_of_subset {st st' : DBState}
    (hrows : ∀ x ∈ st'.rows, x ∈ st.rows) (hid : st'.nextId = st.nextId)
    (hf : Fresh st) : Fresh st' := by
  intro x hx
  rw [hid]
  exact hf x (hrows x hx)

theorem nodup_sublist {st st' : DBState} (h : st'.rows.Sublist st.rows)
    (hn : NodupIds st) : NodupIds st' :=
  List.Nodup.sublist (List.Sublist.map _ h) hn

theorem deduplicateDNS_sublist (c w : Nat) (st : DBState) :
    (deduplicateDNS c w st).rows.Sublist st.rows := by
  rw [deduplicateDNS_rows]
  exact List.filter_sublist _

theorem removeOrphanedEnds_sublist (c : Nat) (st : DBState) :
    (removeOrphanedEnds c st).rows.Sublist st.rows := by
  simp only [removeOrphanedEnds]
  exact List.Sublist.trans (List.filter_sublist _) (List.filter_sublist _)

theorem pairMerge_grow {sel : NetworkEvent → Bool}
    {m : NetworkEvent → NetworkEvent → Bool}
    {mk : NetworkEvent → NetworkEvent → NetworkEvent}
    (hmk : ∀ s e, Synth (mk s e)) {st : DBState} {x : NetworkEvent}
    (h : x ∈ (pairMerge sel m mk st).rows) : x ∈ st.rows ∨ Synth x :=
  foldl_mergeStep_grow hmk _ st x h

theorem compact_grow {c w : Nat} {st : DBState} {x : NetworkEvent}
    (h : x ∈ (compact c w st).rows) : x ∈ st.rows ∨ Synth x := by
  simp only [compact] at h
  have h4 := removeOrphanedEnds_mem h
  have h3 : x ∈ (compactDNS c (compactUDP c (compactTCP c st))).rows := by
    by_cases hw : 0 < w
    · rw [if_pos hw] at h4
      exact deduplicateDNS_mem h4
    · rw [if_neg hw] at h4
      exact h4
  rcases pairMerge_grow mkCompactedDNS_synth h3 with h2 | hs
  · rcases pairMerge_grow mkCompactedUDP_synth h2 with h1 | hs
    · exact pairMerge_grow mkCompactedTCP_synth h1
    · exact Or.inr hs
  · exact Or.inr hs

theorem fresh_pairMerge {sel : NetworkEvent → Bool}
    {m : NetworkEvent → NetworkEvent → Bool}
    {mk : NetworkEvent → NetworkEvent → NetworkEvent}
    {st : DBState} (hf : Fresh st) : Fresh (pairMerge sel m mk st) :=
  fresh_foldl_mergeStep _ st hf

theorem nodup_pairMerge {sel : NetworkEvent → Bool}
    {m : NetworkEvent → NetworkEvent → Bool}
    {mk : NetworkEvent → NetworkEvent → NetworkEvent}
    {st : DBState} (hf : Fresh st) (hn : NodupIds st) :
    NodupIds (pairMerge sel m mk st) :=
  nodup_foldl_mergeStep _ st hf hn

theorem fresh_compact {c w : Nat} {st : DBState} (hf : Fresh st) :
    Fresh (compact c w st) := by
  simp only [compact]
  have h3 : Fresh (compactDNS c (compactUDP c (compactTCP c st))) :=
    fresh_pairMerge (fresh_pairMerge (fresh_pairMerge hf))
  have h4 : Fresh (if 0 < w then
      deduplicateDNS c w (compactDNS c (compactUDP c (compactTCP c st)))
    else compactDNS c (compactUDP c (compactTCP c st))) := by
    by_cases hw : 0 < w
    · rw [if_pos hw]
      exact fresh_of_subset (fun x hx => deduplicateDNS_mem hx)
        (deduplicateDNS_nextId _ _ _) h3
    · rw [if_neg hw]; exact h3
  exact fresh_of_subset (fun x hx => removeOrphanedEnds_mem hx)
    (removeOrphanedEnds_nextId _ _) h4

theorem nodup_compact {c w : Nat} {st : DBState} (hf : Fresh st) (hn : NodupIds st) :
    NodupIds (compact c w st) := by
  simp only [compact]
  have h3 : NodupIds (compactDNS c (compactUDP c (compactTCP c st))) :=
    nodup_pairMerge (fresh_pairMerge (fresh_pairMerge hf))
      (nodup_pairMerge (fresh_pairMerge hf) (nodup_pairMerge hf hn))
  have h4 : NodupIds (if 0 < w then
      deduplicateDNS c w (compactDNS c (compactUDP c (compactTCP c st)))
    else compactDNS c (compactUDP c (compactTCP c st))) := by
    by_cases hw : 0 < w
    · rw [if_pos hw]
      exact nodup_sublist (deduplicateDNS_sublist _ _ _) h3
    · rw [if_neg hw]; exact h3
  exact nodup_sublist (removeOrphanedEnds_sublist _ _) h4

/-- A compacted row's `original_ids` decomposes into two ids below the
auto-increment counter, neither of which is the id of a present row. -/
def NoResolve (st : DBState) (r : NetworkEvent) : Prop :=
  ∃ a b, a < st.nextId ∧ b < st.nextId ∧ r.originalIDs = mkOriginalIDs a b ∧
    ∀ x ∈ st.rows, x.id ≠ a ∧ x.id ≠ b

/-- The invariant of persisted compacted TCP/UDP rows. -/
def CompactedInv (st : DBState) : Prop :=
  ∀ r ∈ st.rows, r.compacted = true → (r.eventType = .TCP ∨ r.eventType = .UDP) →
    r.timestamp ≤ r.endTime ∧ NoResolve st r

theorem compactedInv_of_subset {st st' : DBState}
    (hrows : ∀ x ∈ st'.rows, x ∈ st.rows) (hid : st'.nextId = st.nextId)
    (hinv : CompactedInv st) : CompactedInv st' := by
  intro r hr hc ht
  obtain ⟨h1, a, b, ha, hb, hs, hres⟩ := hinv r (hrows r hr) hc ht
  exact ⟨h1, a, b, by omega, by omega, hs, fun x hx => hres x (hrows x hx)⟩

theorem mergeStep_nextId {m : NetworkEvent → NetworkEvent → Bool}
    {mk : NetworkEvent → NetworkEvent → NetworkEvent} {st : DBState}
    {s e : NetworkEvent} (he : findEnd m st s = some e) :
    (mergeStep m mk st s).nextId = st.nextId + 1 := by
  rw [mergeStep, he]
  rfl

theorem mergeStep_compactedInv {m : NetworkEvent → NetworkEvent → Bool}
    {mk : NetworkEvent → NetworkEvent → NetworkEvent}
    (hmk2 : ∀ s e, m s e = true → (mk s e).timestamp ≤ (mk s e).endTime)
    (hmk3 : ∀ s e, (mk s e).originalIDs = mkOriginalIDs s.id e.id)
    {st : DBState} {s : NetworkEvent} (hf : Fresh st) (hsid : s.id < st.nextId)
    (hinv : CompactedInv st) : CompactedInv (mergeStep m mk st s) := by
  rw [mergeStep]
  cases he : findEnd m st s with
  | none => exact hinv
  | some e =>
    show CompactedInv (((st.create (mk s e)).deleteById s.id).deleteById e.id)
    obtain ⟨hemem, hematch, _⟩ := findEnd_some he
    have heid : e.id < st.nextId := hf e hemem
    have hnid : (((st.create (mk s e)).deleteById s.id).deleteById e.id).nextId =
        st.nextId + 1 := rfl
    intro r hr hc ht
    have hrm := hr
    rw [mem_deleteById, mem_deleteById, mem_create] at hrm
    rcases hrm.1.1 with hold | hnew
    · obtain ⟨h1, a, b, ha, hb, hs, hres⟩ := hinv r hold hc ht
      refine ⟨h1, a, b, by omega, by omega, hs, ?_⟩
      intro x hx
      rw [mem_deleteById, mem_deleteById, mem_create] at hx
      rcases hx.1.1 with hxold | hxnew
      · exact hres x hxold
      · have hxid : x.id = st.nextId := by rw [hxnew]
        exact ⟨by omega, by omega⟩
    · constructor
      · have hts : r.timestamp = (mk s e).timestamp := by rw [hnew]
        have hte : r.endTime = (mk s e).endTime := by rw [hnew]
        rw [hts, hte]
        exact hmk2 s e hematch
      · refine ⟨s.id, e.id, by omega, by omega, ?_, ?_⟩
        · have horig : r.originalIDs = (mk s e).originalIDs := by rw [hnew]
          rw [horig]
          exact hmk3 s e
        · intro x hx
          rw [mem_deleteById, mem_deleteById] at hx
          exact ⟨hx.1.2, hx.2⟩

theorem foldl_mergeStep_compactedInv {m : NetworkEvent → NetworkEvent → Bool}
    {mk : NetworkEvent → NetworkEvent → NetworkEvent}
    (hmk2 : ∀ s e, m s e = true → (mk s e).timestamp ≤ (mk s e).endTime)
    (hmk3 : ∀ s e, (mk s e).originalIDs = mkOriginalIDs s.id e.id) :
    ∀ (snap : List NetworkEvent) (st : DBState), Fresh st →
      (∀ s ∈ snap, s.id < st.nextId) → CompactedInv st →
      CompactedInv (snap.foldl (mergeStep m mk) st) := by
  intro snap
  induction snap with
  | nil => intro st _ _ hinv; exact hinv
  | cons a rest ih =>
    intro st hf hsnap hinv
    rw [List.foldl_cons]
    refine ih _ (fresh_mergeStep hf) ?_
      (mergeStep_compactedInv hmk2 hmk3 hf (hsnap a (by simp)) hinv)
    intro s hs
    have h1 := hsnap s (by simp [hs])
    have h2 := @mergeStep_nextId_le m mk st a
    omega

theorem pairMerge_compactedInv {sel : NetworkEvent → Bool}
    {m : NetworkEvent → NetworkEvent → Bool}
    {mk : NetworkEvent → NetworkEvent → NetworkEvent}
    (hmk2 : ∀ s e, m s e = true → (mk s e).timestamp ≤ (mk s e).endTime)
    (hmk3 : ∀ s e, (mk s e).originalIDs = mkOriginalIDs s.id e.id)
    {st : DBState} (hf : Fresh st) (hinv : CompactedInv st) :
    CompactedInv (pairMerge sel m mk st) := by
  refine foldl_mergeStep_compactedInv hmk2 hmk3 _ st hf ?_ hinv
  intro s hs
  exact hf s (List.mem_of_mem_filter hs)

theorem tcpEndMatch_lt {s e : NetworkEvent} (h : tcpEndMatch s e = true) :
    s.timestamp < e.timestamp := by
  simp only [tcpEndMatch, Bool.and_eq_true, decide_eq_true_eq] at h
  exact h.1.2

theorem udpEndMatch_lt {s e : NetworkEvent} (h : udpEndMatch s e = true) :
    s.timestamp < e.timestamp := by
  simp only [udpEndMatch, Bool.and_eq_true, decide_eq_true_eq] at h
  exact h.1.2

theorem dnsResponseMatch_lt {s e : NetworkEvent} (h : dnsResponseMatch s e = true) :
    s.timestamp < e.timestamp := by
  simp only [dnsResponseMatch, Bool.and_eq_true, decide_eq_true_eq] at h
  exact h.1.2

theorem mkCompactedTCP_ts_le (s e : NetworkEvent) (hm : tcpEndMatch s e = true) :
    (mkCompactedTCP s e).timestamp ≤ (mkCompactedTCP s e).endTime :=
  Nat.le_of_lt (tcpEndMatch_lt hm)

theorem mkCompactedUDP_ts_le (s e : NetworkEvent) (hm : udpEndMatch s e = true) :
    (mkCompactedUDP s e).timestamp ≤ (mkCompactedUDP s e).endTime :=
  Nat.le_of_lt (udpEndMatch_lt hm)

theorem mkCompactedDNS_ts_le (s e : NetworkEvent) (hm : dnsResponseMatch s e = true) :
    (mkCompactedDNS s e).timestamp ≤ (mkCompactedDNS s e).endTime :=
  Nat.le_of_lt (dnsResponseMatch_lt hm)

theorem mkCompactedTCP_orig (s e : NetworkEvent) :
    (mkCompactedTCP s e).originalIDs = mkOriginalIDs s.id e.id := rfl

theorem mkCompactedUDP_orig (s e : NetworkEvent) :
    (mkCompactedUDP s e).originalIDs = mkOriginalIDs s.id e.id := rfl

theorem mkCompactedDNS_orig (s e : NetworkEvent) :
    (mkCompactedDNS s e).originalIDs = mkOriginalIDs s.id e.id := rfl

theorem compact_compactedInv {c w : Nat} {st : DBState}
    (hf : Fresh st) (hinv : CompactedInv st) : CompactedInv (compact c w st) := by
  simp only [compact]
  have h1 : CompactedInv (compactTCP c st) :=
    pairMerge_compactedInv mkCompactedTCP_ts_le mkCompactedTCP_orig hf hinv
  have hf1 : Fresh (compactTCP c st) := fresh_pairMerge hf
  have h2 : CompactedInv (compactUDP c (compactTCP c st)) :=
    pairMerge_compactedInv mkCompactedUDP_ts_le mkCompactedUDP_orig hf1 h1
  have hf2 : Fresh (compactUDP c (compactTCP c st)) := fresh_pairMerge hf1
  have h3 : CompactedInv (compactDNS c (compactUDP c (compactTCP c st))) :=
    pairMerge_compactedInv mkCompactedDNS_ts_le mkCompactedDNS_orig hf2 h2
  have h4 : CompactedInv (if 0 < w then
      deduplicateDNS c w (compactDNS c (compactUDP c (compactTCP c st)))
    else compactDNS c (compactUDP c (compactTCP c st))) := by
    by_cases hw : 0 < w
    · rw [if_pos hw]
      exact compactedInv_of_subset (fun x hx => deduplicateDNS_mem hx)
        (deduplicateDNS_nextId _ _ _) h3
    · rw [if_neg hw]; exact h3
  exact compactedInv_of_subset (fun x hx => removeOrphanedEnds_mem hx)
    (removeOrphanedEnds_nextId _ _) h4

/-- C2: after a compaction run, every compacted TCP or UDP row r in the
store satisfies end_time >= timestamp, and its original_ids string names
exactly two ids (the decomposition into two decimal numbers around the
comma is unique), neither of which is the id of a row still present. -/
theorem C2_compacted_rows_sound (c w : Nat) (st : DBState)
    (hf : Fresh st) (hinv : CompactedInv st) :
    ∀ r ∈ (compact c w st).rows, r.compacted = true →
      (r.eventType = .TCP ∨ r.eventType = .UDP) →
      r.timestamp ≤ r.endTime ∧
      ∃ a b, r.originalIDs = mkOriginalIDs a b ∧
        (∀ p q, r.originalIDs = mkOriginalIDs p q → p = a ∧ q = b) ∧
        ∀ x ∈ (compact c w st).rows, x.id ≠ a ∧ x.id ≠ b := by
  intro r hr hc ht
  obtain ⟨h1, a, b, _, _, hs, hres⟩ := compact_compactedInv hf hinv r hr hc ht
  refine ⟨h1, a, b, hs, ?_, hres⟩
  intro p q hpq
  have := mkOriginalIDs_inj a b p q (hs ▸ hpq)
  exact ⟨this.1.symm, this.2.symm⟩

/-- Witness for C2: the SYN-FIN store is compacted into one TCP row whose
end_time dominates its timestamp and whose original_ids "1,2" resolve to
no surviving row. -/
theorem C2_compacted_rows_sound_witness :
    ({ id := 3, timestamp := 0, endTime := 5000, eventType := .TCP,
       interface := "", ipVersion := 0, srcIP := "10.0.0.1", srcPort := 40000,
       dstIP := "8.8.8.8", dstPort := 443, hostname := "dns.google",
       dnsAge := 0, duration := 5000, byteCount := 1500, reason := "FIN",
       compacted := true, originalIDs := mkOriginalIDs 1 2 } :
        NetworkEvent).timestamp ≤
      ({ id := 3, timestamp := 0, endTime := 5000, eventType := .TCP,
         interface := "", ipVersion := 0, srcIP := "10.0.0.1", srcPort := 40000,
         dstIP := "8.8.8.8", dstPort := 443, hostname := "dns.google",
         dnsAge := 0, duration := 5000, byteCount := 1500, reason := "FIN",
         compacted := true, originalIDs := mkOriginalIDs 1 2 } :
          NetworkEvent).endTime ∧
    ∃ a b,
      ({ id := 3, timestamp := 0, endTime := 5000, eventType := .TCP,
         interface := "", ipVersion := 0, srcIP := "10.0.0.1", srcPort := 40000,
         dstIP := "8.8.8.8", dstPort := 443, hostname := "dns.google",
         dnsAge := 0, duration := 5000, byteCount := 1500, reason := "FIN",
         compacted := true, originalIDs := mkOriginalIDs 1 2 } :
          NetworkEvent).originalIDs = mkOriginalIDs a b ∧
      (∀ p q,
        ({ id := 3, timestamp := 0, endTime := 5000, eventType := .TCP,
           interface := "", ipVersion := 0, srcIP := "10.0.0.1", srcPort := 40000,
           dstIP := "8.8.8.8", dstPort := 443, hostname := "dns.google",
           dnsAge := 0, duration := 5000, byteCount := 1500, reason := "FIN",
           compacted := true, originalIDs := mkOriginalIDs 1 2 } :
            NetworkEvent).originalIDs = mkOriginalIDs p q → p = a ∧ q = b) ∧
      ∀ x ∈ (compact 10000 0
          { rows :=
              [{ id := 1, timestamp := 0, eventType := .TCP_START,
                 srcIP := "10.0.0.1", srcPort := 40000, dstIP := "8.8.8.8",
                 dstPort := 443, hostname := "dns.google" },
               { id := 2, timestamp := 5000, eventType := .TCP_END,
                 srcIP := "10.0.0.1", srcPort := 40000, dstIP := "8.8.8.8",
                 dstPort := 443, duration := 5000, byteCount := 1500,
                 reason := "FIN" }],
            nextId := 3 }).rows, x.id ≠ a ∧ x.id ≠ b :=
  C2_compacted_rows_sound 10000 0
    { rows :=
        [{ id := 1, timestamp := 0, eventType := .TCP_START,
           srcIP := "10.0.0.1", srcPort := 40000, dstIP := "8.8.8.8",
           dstPort := 443, hostname := "dns.google" },
         { id := 2, timestamp := 5000, eventType := .TCP_END,
           srcIP := "10.0.0.1", srcPort := 40000, dstIP := "8.8.8.8",
           dstPort := 443, duration := 5000, byteCount := 1500,
           reason := "FIN" }],
      nextId := 3 }
    (by decide)
    (by
      intro r hr hc ht
      simp only [List.mem_cons, List.not_mem_nil, or_false] at hr
      rcases hr with h | h <;> (subst h; simp at hc))
    _ (by decide) rfl (Or.inl rfl)

/-- C3: with a positive dedupe window, the dedupe phase scans the DNS rows
older than the cutoff in (dns_query, timestamp) order, deleting rows whose
kept predecessor on the same query is within the window; on ten QUERY rows
for one name at t = 0s..9s with window 5s and cutoff above all of them,
exactly the rows at t = 0s and t = 5s survive the compaction run. -/
theorem C3_dns_dedupe_scenario :
    ((compact 10000 5000
        { rows := (List.range 10).map (fun i =>
            { id := i + 1, timestamp := i * 1000, eventType := .DNS,
              dnsType := "QUERY", dnsQuery := "api.x" }),
          nextId := 11 }).rows.map (fun e => (e.id, e.timestamp))) =
      [(1, 0), (6, 5000)] := by decide

/-- C6: the compact command with dry-run enabled returns the store exactly
as opened — no row is inserted or deleted by any phase — and computes only
the preview counts. -/
theorem C6_dry_run_frame (olderThan window : Nat) (hourlySummary : Bool)
    (st : DBState) :
    (runCompact olderThan window hourlySummary true st).1 = st ∧
    (runCompact olderThan window hourlySummary true st).2 =
      some (showCompactionPreview olderThan window hourlySummary st) :=
  ⟨rfl, rfl⟩

/-- C7 counterexample: the open path executes only the journal-mode,
synchronous and cache-size pragmas; no memory-map window and no
foreign-keys pragma is applied, refuting the claim that opening enables
them. -/
theorem C7_counterexample :
    ¬((openPragmas.any (fun p => p.1 == "mmap_size")) = true ∧
      (openPragmas.any (fun p => p.1 == "foreign_keys")) = true) := by decide

/-- C7 amended: opening the store applies exactly journal_mode=WAL,
synchronous=NORMAL and cache_size=2000 (2000 pages, not a byte size), and
opening a path where no file exists creates an empty migrated store whose
ids start at 1. -/
theorem C7_amended_open_config :
    newDB none =
      ({ rows := [], nextId := 1 },
       [("journal_mode", "WAL"), ("synchronous", "NORMAL"),
        ("cache_size", "2000")]) := rfl

/-- C8 counterexample: a bucket older than the cutoff holding one
non-HOURLY row (a compacted TCP row) is left untouched by the
hourly-summary step — no HOURLY row is appended and nothing is deleted —
because the bucket query excludes TCP rows; this refutes the claim that
every bucket containing non-HOURLY rows is summarized. -/
theorem C8_counterexample :
    (createHourlySummary 7200000
        { rows := [{ id := 1, timestamp := 1000, eventType := .TCP,
                     interface := "eth0", ipVersion := 4, compacted := true }],
          nextId := 2 }).1 =
      { rows := [{ id := 1, timestamp := 1000, eventType := .TCP,
                   interface := "eth0", ipVersion := 4, compacted := true }],
        nextId := 2 } ∧
    (({ rows := [{ id := 1, timestamp := 1000, eventType := .TCP,
                   interface := "eth0", ipVersion := 4, compacted := true }],
        nextId := 2 } : DBState).rows.any (fun e =>
          e.eventType != .HOURLY && decide (e.timestamp < 7200000))) = true := by
  decide

set_option maxRecDepth 100000 in
/-- C8 amended: a bucket is summarized when it holds at least one row older
than the cutoff whose type is neither HOURLY nor TCP and the five class
counts are not all zero; then exactly one HOURLY row is appended with the
hour-aligned timestamp, the protocol breakdown string and the summed
event_count, and all non-HOURLY rows of that hour are deleted; in
particular a bucket of 100 TCP, 50 UDP, 200 DNS, 10 TLS_SNI and 5 ICMP
rows yields one HOURLY row with event_count 365 and protocol
"TCP:100,UDP:50,DNS:200,TLS:10,ICMP:5" and zero original rows remaining. -/
theorem C8_amended_hourly_scenario :
    (createHourlySummary 7200000
        { rows :=
            ((List.range 100).map (fun i =>
              { id := i + 1, timestamp := i * 10, eventType := .TCP,
                interface := "eth0", ipVersion := 4 })) ++
            ((List.range 50).map (fun i =>
              { id := i + 101, timestamp := i * 10 + 1, eventType := .UDP,
                interface := "eth0", ipVersion := 4 })) ++
            ((List.range 200).map (fun i =>
              { id := i + 151, timestamp := i * 10 + 2, eventType := .DNS,
                interface := "eth0", ipVersion := 4 })) ++
            ((List.range 10).map (fun i =>
              { id := i + 351, timestamp := i * 10 + 3, eventType := .TLS_SNI,
                interface := "eth0", ipVersion := 4 })) ++
            ((List.range 5).map (fun i =>
              { id := i + 361, timestamp := i * 10 + 4, eventType := .ICMP,
                interface := "eth0", ipVersion := 4 })),
          nextId := 366 }).1.rows =
      [{ id := 366, timestamp := 0, eventType := .HOURLY, interface := "eth0",
         ipVersion := 4, protocol := "TCP:100,UDP:50,DNS:200,TLS:10,ICMP:5",
         compacted := true, eventCount := 365 }] ∧
    (createHourlySummary 7200000
        { rows :=
            ((List.range 100).map (fun i =>
              { id := i + 1, timestamp := i * 10, eventType := .TCP,
                interface := "eth0", ipVersion := 4 })) ++
            ((List.range 50).map (fun i =>
              { id := i + 101, timestamp := i * 10 + 1, eventType := .UDP,
                interface := "eth0", ipVersion := 4 })) ++
            ((List.range 200).map (fun i =>
              { id := i + 151, timestamp := i * 10 + 2, eventType := .DNS,
                interface := "eth0", ipVersion := 4 })) ++
            ((List.range 10).map (fun i =>
              { id := i + 351, timestamp := i * 10 + 3, eventType := .TLS_SNI,
                interface := "eth0", ipVersion := 4 })) ++
            ((List.range 5).map (fun i =>
              { id := i + 361, timestamp := i * 10 + 4, eventType := .ICMP,
                interface := "eth0", ipVersion := 4 })),
          nextId := 366 }).2 = 1 := by decide

/-- C9 counterexample: with a subscriber registered (one client, empty
queue, free capacity), a successful append through InsertEvent stores the
row but leaves the subscriber's queue untouched — the append path never
invokes the publisher bridge, refuting "called after every successful
append". -/
theorem C9_counterexample :
    (insertEvent
        { db := { rows := [], nextId := 1 },
          globalPublisher := some { clients := 1, broadcast := [], capacity := 5 } }
        { id := 0, timestamp := 1, eventType := .DNS }).db.rows.length = 1 ∧
    (insertEvent
        { db := { rows := [], nextId := 1 },
          globalPublisher := some { clients := 1, broadcast := [], capacity := 5 } }
        { id := 0, timestamp := 1, eventType := .DNS }).globalPublisher =
      some { clients := 1, broadcast := [], capacity := 5 } := by decide

/-- C9 amended: the bridge holds at most one registered subscriber (a
second registration replaces the first); publishing is best-effort and
never blocks: with no subscriber it is a no-op, and a full subscriber
queue drops the event; the append path itself does not invoke the
publisher — events reach the subscriber by polling instead. -/
theorem C9_amended_publisher_bridge (w : World) (h1 h2 : HubState)
    (e : NetworkEvent) :
    (setEventPublisher (setEventPublisher w h1) h2).globalPublisher = some h2 ∧
    (w.globalPublisher = none → publishEvent w e = w) ∧
    (∀ h : HubState, h.capacity ≤ h.broadcast.length → hubPublishEvent h e = h) ∧
    (insertEvent w e).globalPublisher = w.globalPublisher := by
  refine ⟨rfl, ?_, ?_, rfl⟩
  · intro hnone
    simp [publishEvent, hnone]
  · intro h hfull
    rw [hubPublishEvent]
    by_cases hc : h.clients == 0
    · rw [if_pos hc]
    · rw [if_neg hc, if_neg (by omega)]

/-- Witness for the amended C9 at concrete states: slot replacement,
no-subscriber no-op, full-queue drop, and append leaving the slot
unchanged. -/
theorem C9_amended_publisher_bridge_witness :
    (setEventPublisher
        (setEventPublisher { db := { rows := [], nextId := 1 },
                             globalPublisher := none }
          { clients := 1, broadcast := [], capacity := 5 })
        { clients := 2, broadcast := [], capacity := 3 }).globalPublisher =
      some { clients := 2, broadcast := [], capacity := 3 } ∧
    publishEvent { db := { rows := [], nextId := 1 }, globalPublisher := none }
        { id := 0, timestamp := 1, eventType := .DNS } =
      { db := { rows := [], nextId := 1 }, globalPublisher := none } ∧
    hubPublishEvent
        { clients := 1,
          broadcast := [{ id := 7, timestamp := 0, eventType := .DNS }],
          capacity := 1 }
        { id := 0, timestamp := 1, eventType := .DNS } =
      { clients := 1,
        broadcast := [{ id := 7, timestamp := 0, eventType := .DNS }],
        capacity := 1 } ∧
    (insertEvent { db := { rows := [], nextId := 1 }, globalPublisher := none }
        { id := 0, timestamp := 1, eventType := .DNS }).globalPublisher = none := by
  have h := C9_amended_publisher_bridge
    { db := { rows := [], nextId := 1 }, globalPublisher := none }
    { clients := 1, broadcast := [], capacity := 5 }
    { clients := 2, broadcast := [], capacity := 3 }
    { id := 0, timestamp := 1, eventType := .DNS }
  exact ⟨h.1, h.2.1 rfl,
    h.2.2.1 { clients := 1,
              broadcast := [{ id := 7, timestamp := 0, eventType := .DNS }],
              capacity := 1 } (by decide),
    h.2.2.2⟩

/-- The rows kept by the dedupe scan, mirroring `dedupScan`. -/
def keptScan (window : Nat) :
    List NetworkEvent → Option (String × Nat) → List NetworkEvent
  | [], _ => []
  | e :: rest, none => e :: keptScan window rest (some (e.dnsQuery, e.timestamp))
  | e :: rest, some (q, t) =>
    if e.dnsQuery == q && decide (e.timestamp - t < window) then
      keptScan window rest (some (q, t))
    else
      e :: keptScan window rest (some (e.dnsQuery, e.timestamp))

/-- Two rows on the same query, in scan order, are at least a window
apart. -/
def gapOK (w : Nat) (a b : NetworkEvent) : Prop :=
  a.dnsQuery = b.dnsQuery → a.timestamp + w ≤ b.timestamp

/-- Order-insensitive form of `gapOK`. -/
def symGap (w : Nat) (a b : NetworkEvent) : Prop :=
  a.dnsQuery = b.dnsQuery →
    (a.timestamp + w ≤ b.timestamp ∨ b.timestamp + w ≤ a.timestamp)

/-- The scan accumulator key precedes a row in `(dns_query, timestamp)`
order. -/
def keyLe (q : String) (t : Nat) (x : NetworkEvent) : Prop :=
  strLtB q x.dnsQuery = true ∨ (q = x.dnsQuery ∧ t ≤ x.timestamp)

theorem symGap_symm (w : Nat) : Symmetric (symGap w) := by
  intro a b h hq
  rcases h hq.symm with h' | h'
  · exact Or.inr h'
  · exact Or.inl h'

theorem dnsKeyLe_same_query {a b : NetworkEvent} (h : dnsKeyLe a b)
    (hq : a.dnsQuery = b.dnsQuery) : a.timestamp ≤ b.timestamp := by
  rcases h with h | ⟨_, h⟩
  · exact absurd hq (strLtB_ne h)
  · exact h

theorem keptScan_sublist (w : Nat) :
    ∀ (l : List NetworkEvent) (acc : Option (String × Nat)),
      (keptScan w l acc).Sublist l := by
  intro l
  induction l with
  | nil => intro acc; cases acc <;> exact List.Sublist.refl _
  | cons e rest ih =>
    intro acc
    cases acc with
    | none =>
      rw [keptScan]
      exact List.Sublist.cons₂ e (ih _)
    | some p =>
      obtain ⟨q, t⟩ := p
      rw [keptScan]
      by_cases hc : (e.dnsQuery == q && decide (e.timestamp - t < w)) = true
      · rw [if_pos hc]
        exact List.Sublist.cons e (ih _)
      · rw [if_neg hc]
        exact List.Sublist.cons₂ e (ih _)

theorem keptScan_acc_bound (w : Nat) (hw : 0 < w) :
    ∀ (l : List NetworkEvent), l.Pairwise dnsKeyLe →
      ∀ q t, (∀ x ∈ l, keyLe q t x) →
        ∀ x ∈ keptScan w l (some (q, t)), x.dnsQuery = q → t + w ≤ x.timestamp := by
  intro l
  induction l with
  | nil => intro _ q t _ x hx; cases hx
  | cons e rest ih =>
    intro hpair q t hacc x hx hxq
    rw [List.pairwise_cons] at hpair
    rw [keptScan] at hx
    by_cases hc : (e.dnsQuery == q && decide (e.timestamp - t < w)) = true
    · rw [if_pos hc] at hx
      exact ih hpair.2 q t (fun y hy => hacc y (by simp [hy])) x hx hxq
    · rw [if_neg hc] at hx
      by_cases hq : e.dnsQuery = q
      · have hnot : ¬(e.timestamp - t < w) := by
          intro hlt
          exact hc (by simp [hq, hlt])
        have hte : t + w ≤ e.timestamp := by omega
        rcases List.mem_cons.mp hx with hxe | hxr
        · subst hxe; exact hte
        · have hbound := ih hpair.2 e.dnsQuery e.timestamp
            (fun y hy => by
              have := hpair.1 y hy
              rcases this with h | ⟨h1, h2⟩
              · exact Or.inl h
              · exact Or.inr ⟨h1, h2⟩)
            x hxr (by rw [hxq, hq])
          omega
      · exfalso
        have hke := hacc e (by simp)
        rcases hke with hke | ⟨hke, _⟩
        · rcases List.mem_cons.mp hx with hxe | hxr
          · exact hq ((hxe ▸ hxq))
          · have hxrest : x ∈ rest := (keptScan_sublist w rest _).subset hxr
            have hkey := hpair.1 x hxrest
            rcases hkey with hkey | ⟨hkey, _⟩
            · rw [hxq] at hkey
              have hcc := charListLt_trans _ _ _ hke hkey
              rw [charListLt_irrefl] at hcc
              exact Bool.false_ne_true hcc
            · exact hq (hkey.trans hxq)
        · exact hq hke.symm

theorem keptScan_pairwise (w : Nat) (hw : 0 < w) :
    ∀ (l : List NetworkEvent), l.Pairwise dnsKeyLe →
      ∀ acc : Option (String × Nat),
        (∀ q t, acc = some (q, t) → ∀ x ∈ l, keyLe q t x) →
        (keptScan w l acc).Pairwise (gapOK w) := by
  intro l
  induction l with
  | nil =>
    intro _ acc _
    cases acc with
    | none => exact List.Pairwise.nil
    | some p => obtain ⟨q, t⟩ := p; exact List.Pairwise.nil
  | cons e rest ih =>
    intro hpair acc hacc
    rw [List.pairwise_cons] at hpair
    have hrestacc : ∀ x ∈ rest, keyLe e.dnsQuery e.timestamp x := by
      intro y hy
      have := hpair.1 y hy
      rcases this with h | ⟨h1, h2⟩
      · exact Or.inl h
      · exact Or.inr ⟨h1, h2⟩
    cases acc with
    | none =>
      rw [keptScan, List.pairwise_cons]
      constructor
      · intro x hx hq
        exact keptScan_acc_bound w hw rest hpair.2 e.dnsQuery e.timestamp
          hrestacc x hx hq.symm
      · exact ih hpair.2 (some (e.dnsQuery, e.timestamp))
          (fun q t hqt => by
            rw [Option.some.injEq, Prod.mk.injEq] at hqt
            rw [← hqt.1, ← hqt.2]
            exact hrestacc)
    | some p =>
      obtain ⟨q, t⟩ := p
      rw [keptScan]
      by_cases hc : (e.dnsQuery == q && decide (e.timestamp - t < w)) = true
      · rw [if_pos hc]
        exact ih hpair.2 (some (q, t))
          (fun q' t' hqt => by
            rw [Option.some.injEq, Prod.mk.injEq] at hqt
            rw [← hqt.1, ← hqt.2]
            intro x hx
            exact hacc q t rfl x (by simp [hx]))
      · rw [if_neg hc, List.pairwise_cons]
        constructor
        · intro x hx hq
          exact keptScan_acc_bound w hw rest hpair.2 e.dnsQuery e.timestamp
            hrestacc x hx hq.symm
        · exact ih hpair.2 (some (e.dnsQuery, e.timestamp))
            (fun q' t' hqt => by
              rw [Option.some.injEq, Prod.mk.injEq] at hqt
              rw [← hqt.1, ← hqt.2]
              exact hrestacc)

theorem dedupScan_nil (w : Nat) (hw : 0 < w) :
    ∀ (l : List NetworkEvent), l.Pairwise dnsKeyLe → l.Pairwise (symGap w) →
      ∀ acc : Option (String × Nat),
        (∀ q t, acc = some (q, t) → ∀ x ∈ l, x.dnsQuery = q → t + w ≤ x.timestamp) →
        dedupScan w l acc = [] := by
  intro l
  induction l with
  | nil =>
    intro _ _ acc _
    cases acc with
    | none => rfl
    | some p => obtain ⟨q, t⟩ := p; rfl
  | cons e rest ih =>
    intro hpair hgap acc hacc
    rw [List.pairwise_cons] at hpair hgap
    have hrestacc : ∀ x ∈ rest, x.dnsQuery = e.dnsQuery →
        e.timestamp + w ≤ x.timestamp := by
      intro x hx hq
      have hle : e.timestamp ≤ x.timestamp :=
        dnsKeyLe_same_query (hpair.1 x hx) hq.symm
      rcases hgap.1 x hx hq.symm with h | h
      · exact h
      · omega
    cases acc with
    | none =>
      rw [dedupScan]
      exact ih hpair.2 hgap.2 (some (e.dnsQuery, e.timestamp))
        (fun q t hqt => by
          rw [Option.some.injEq, Prod.mk.injEq] at hqt
          rw [← hqt.1, ← hqt.2]
          exact hrestacc)
    | some p =>
      obtain ⟨q, t⟩ := p
      rw [dedupScan]
      have hc : (e.dnsQuery == q && decide (e.timestamp - t < w)) = false := by
        by_cases hq : e.dnsQuery = q
        · have := hacc q t rfl e (by simp) hq
          have hnot : ¬(e.timestamp - t < w) := by omega
          simp [hq, hnot]
        · simp [hq]
      rw [if_neg (by simp [hc])]
      exact ih hpair.2 hgap.2 (some (e.dnsQuery, e.timestamp))
        (fun q' t' hqt => by
          rw [Option.some.injEq, Prod.mk.injEq] at hqt
          rw [← hqt.1, ← hqt.2]
          exact hrestacc)

theorem filter_comm' {α : Type} (p q : α → Bool) (l : List α) :
    (l.filter p).filter q = (l.filter q).filter p := by
  rw [List.filter_filter, List.filter_filter]
  exact List.filter_congr (fun a _ => by rw [Bool.and_comm])

theorem dedupScan_subset (w : Nat) :
    ∀ (l : List NetworkEvent) (acc : Option (String × Nat)),
      ∀ i ∈ dedupScan w l acc, i ∈ l.map (fun e => e.id) := by
  intro l
  induction l with
  | nil =>
    intro acc i hi
    cases acc with
    | none => cases hi
    | some p => obtain ⟨q, t⟩ := p; cases hi
  | cons e rest ih =>
    intro acc i hi
    cases acc with
    | none =>
      rw [dedupScan] at hi
      exact List.mem_cons_of_mem _ (ih _ i hi)
    | some p =>
      obtain ⟨q, t⟩ := p
      rw [dedupScan] at hi
      by_cases hc : (e.dnsQuery == q && decide (e.timestamp - t < w)) = true
      · rw [if_pos hc] at hi
        rcases List.mem_cons.mp hi with hie | hir
        · rw [List.map_cons, hie]
          exact List.mem_cons_self _ _
        · exact List.mem_cons_of_mem _ (ih _ i hir)
      · rw [if_neg hc] at hi
        exact List.mem_cons_of_mem _ (ih _ i hi)

theorem contains_eq_of_ne {D : List Nat} {a b : Nat} (h : b ≠ a) :
    ((a :: D).contains b) = (D.contains b) := by
  simp [h]

theorem contains_eq_false_of_not_mem {D : List Nat} {b : Nat} (h : b ∉ D) :
    (D.contains b) = false := by
  simp [h]

theorem filter_keptScan (w : Nat) :
    ∀ (l : List NetworkEvent) (acc : Option (String × Nat)),
      (l.map (fun e => e.id)).Nodup →
      l.filter (fun e => !((dedupScan w l acc).contains e.id)) = keptScan w l acc := by
  intro l
  induction l with
  | nil =>
    intro acc _
    cases acc with
    | none => rfl
    | some p => obtain ⟨q, t⟩ := p; rfl
  | cons e rest ih =>
    intro acc hnd
    rw [List.map_cons, List.nodup_cons] at hnd
    cases acc with
    | none =>
      rw [dedupScan, keptScan]
      rw [List.filter_cons]
      have hnotin : ((dedupScan w rest (some (e.dnsQuery, e.timestamp))).contains
          e.id) = false := by
        refine contains_eq_false_of_not_mem ?_
        intro hmem
        exact hnd.1 (dedupScan_subset w rest _ e.id hmem)
      rw [if_pos (by rw [hnotin]; rfl)]
      rw [ih _ hnd.2]
    | some p =>
      obtain ⟨q, t⟩ := p
      rw [dedupScan, keptScan]
      by_cases hc : (e.dnsQuery == q && decide (e.timestamp - t < w)) = true
      · rw [if_pos hc, if_pos hc]
        rw [List.filter_cons]
        rw [if_neg (by simp [List.contains_cons])]
        have hcongr : rest.filter (fun x =>
            !(((e.id :: dedupScan w rest (some (q, t))) : List Nat).contains x.id)) =
            rest.filter (fun x =>
              !((dedupScan w rest (some (q, t))).contains x.id)) := by
          refine List.filter_congr ?_
          intro x hx
          have hne : x.id ≠ e.id := by
            intro hcontra
            exact hnd.1 (hcontra ▸ List.mem_map_of_mem (fun y => y.id) hx)
          rw [contains_eq_of_ne hne]
        rw [hcongr, ih _ hnd.2]
      · rw [if_neg hc, if_neg hc]
        rw [List.filter_cons]
        have hnotin : ((dedupScan w rest (some (e.dnsQuery, e.timestamp))).contains
            e.id) = false := by
          refine contains_eq_false_of_not_mem ?_
          intro hmem
          exact hnd.1 (dedupScan_subset w rest _ e.id hmem)
        rw [if_pos (by rw [hnotin]; rfl)]
        rw [ih _ hnd.2]

theorem dnsDedupSel_eventType {c : Nat} {e : NetworkEvent}
    (h : dnsDedupSel c e = true) : e.eventType = .DNS := by
  simp only [dnsDedupSel, Bool.and_eq_true, beq_iff_eq] at h
  exact h.1

theorem nodup_ids_filter {st : DBState} (hn : NodupIds st)
    (p : NetworkEvent → Bool) :
    ((st.rows.filter p).map (fun e => e.id)).Nodup :=
  List.Nodup.sublist (List.Sublist.map _ (List.filter_sublist _)) hn

theorem dedupe_survivors_perm (c w : Nat) (st : DBState) (hn : NodupIds st) :
    ((deduplicateDNS c w st).rows.filter (dnsDedupSel c)).Perm
      (keptScan w ((st.rows.filter (dnsDedupSel c)).insertionSort dnsKeyLe) none) := by
  rw [deduplicateDNS_rows]
  rw [filter_comm']
  have hperm : (st.rows.filter (dnsDedupSel c)).Perm
      ((st.rows.filter (dnsDedupSel c)).insertionSort dnsKeyLe) :=
    (List.perm_insertionSort dnsKeyLe _).symm
  refine (hperm.filter _).trans ?_
  have hnodup : (((st.rows.filter (dnsDedupSel c)).insertionSort
      dnsKeyLe).map (fun e => e.id)).Nodup := by
    refine List.Nodup.perm (nodup_ids_filter hn (dnsDedupSel c)) ?_
    exact (hperm.map _)
  rw [filter_keptScan w _ none hnodup]

/-- After one dedupe pass, any two surviving DNS rows (older than the
cutoff) on the same query are at least a window apart. -/
theorem dedupe_survivors_pairwise (c w : Nat) (st : DBState) (hw : 0 < w)
    (hn : NodupIds st) :
    ((deduplicateDNS c w st).rows.filter (dnsDedupSel c)).Pairwise (symGap w) := by
  have hsorted : ((st.rows.filter (dnsDedupSel c)).insertionSort
      dnsKeyLe).Pairwise dnsKeyLe :=
    List.sorted_insertionSort dnsKeyLe _
  have hkept : (keptScan w ((st.rows.filter (dnsDedupSel c)).insertionSort
      dnsKeyLe) none).Pairwise (gapOK w) :=
    keptScan_pairwise w hw _ hsorted none (fun q t h => nomatch h)
  have hsym : (keptScan w ((st.rows.filter (dnsDedupSel c)).insertionSort
      dnsKeyLe) none).Pairwise (symGap w) :=
    hkept.imp (fun h hq => Or.inl (h hq))
  exact ((dedupe_survivors_perm c w st hn).pairwise_iff (fun hxy => symGap_symm w hxy)).mpr hsym

theorem removeOrphaned_rows_filter (c : Nat) (st : DBState)
    (p : NetworkEvent → Bool) (hp : ∀ e, p e = true → e.eventType = .DNS) :
    (removeOrphanedEnds c st).rows.filter p = st.rows.filter p := by
  simp only [removeOrphanedEnds]
  rw [filter_comm', filter_comm' _ p]
  have h2 : (st.rows.filter p).filter (fun e =>
      !(e.eventType == EventType.TCP_END && decide (e.timestamp < c) &&
        !hasEarlierStart st.rows EventType.TCP_START e)) = st.rows.filter p := by
    refine List.filter_eq_self.mpr ?_
    intro a ha
    have hdns := hp a (List.mem_filter.mp ha).2
    have : (a.eventType == EventType.TCP_END) = false := by simp [hdns]
    simp [this]
  rw [h2]
  refine List.filter_eq_self.mpr ?_
  intro a ha
  have hdns := hp a (List.mem_filter.mp ha).2
  have : (a.eventType == EventType.UDP_END) = false := by simp [hdns]
  simp [this]

/-- The DNS rows older than the cutoff in a compacted store are pairwise at
least a window apart on equal queries. -/
theorem compact_dns_pairwise (c w : Nat) (st : DBState) (hw : 0 < w)
    (hf : Fresh st) (hn : NodupIds st) :
    ((compact c w st).rows.filter (dnsDedupSel c)).Pairwise (symGap w) := by
  have hn3 : NodupIds (compactDNS c (compactUDP c (compactTCP c st))) :=
    nodup_pairMerge (fresh_pairMerge (fresh_pairMerge hf))
      (nodup_pairMerge (fresh_pairMerge hf) (nodup_pairMerge hf hn))
  simp only [compact]
  rw [if_pos hw]
  rw [removeOrphaned_rows_filter c _ (dnsDedupSel c)
    (fun e he => dnsDedupSel_eventType he)]
  exact dedupe_survivors_pairwise c w _ hw hn3

theorem deduplicateDNS_noop (c w : Nat) (st : DBState) (hw : 0 < w)
    (hpair : (st.rows.filter (dnsDedupSel c)).Pairwise (symGap w)) :
    deduplicateDNS c w st = st := by
  have hsorted : ((st.rows.filter (dnsDedupSel c)).insertionSort
      dnsKeyLe).Pairwise dnsKeyLe :=
    List.sorted_insertionSort dnsKeyLe _
  have hperm : ((st.rows.filter (dnsDedupSel c)).insertionSort
      dnsKeyLe).Perm (st.rows.filter (dnsDedupSel c)) :=
    List.perm_insertionSort dnsKeyLe _
  have hgap : ((st.rows.filter (dnsDedupSel c)).insertionSort
      dnsKeyLe).Pairwise (symGap w) :=
    (hperm.pairwise_iff (fun hxy => symGap_symm w hxy)).mpr hpair
  have hnil : dedupScan w ((st.rows.filter (dnsDedupSel c)).insertionSort
      dnsKeyLe) none = [] :=
    dedupScan_nil w hw _ hsorted hgap none (fun q t h => nomatch h)
  simp only [deduplicateDNS]
  rw [hnil]
  have hself : st.rows.filter (fun e => !(([] : List Nat).contains e.id)) =
      st.rows :=
    List.filter_eq_self.mpr (fun a _ => rfl)
  rw [hself]

theorem hasEarlierStart_of {rows : List NetworkEvent} {t : EventType}
    {e s : NetworkEvent} (hs : s ∈ rows) (h1 : s.eventType = t)
    (h2 : s.srcIP = e.srcIP) (h3 : s.srcPort = e.srcPort) (h4 : s.dstIP = e.dstIP)
    (h5 : s.dstPort = e.dstPort) (h6 : s.timestamp < e.timestamp) :
    hasEarlierStart rows t e = true := by
  rw [hasEarlierStart, List.any_eq_true]
  exact ⟨s, hs, by simp [h1, h2, h3, h4, h5, h6]⟩

theorem removeOrphaned_noop (c : Nat) (st : DBState)
    (h : ∀ e ∈ st.rows, e.timestamp < c →
      (e.eventType = .TCP_END →
        hasEarlierStart st.rows .TCP_START e = true) ∧
      (e.eventType = .UDP_END →
        hasEarlierStart st.rows .UDP_START e = true)) :
    removeOrphanedEnds c st = st := by
  simp only [removeOrphanedEnds]
  have h1 : st.rows.filter (fun e =>
      !(e.eventType == EventType.TCP_END && decide (e.timestamp < c) &&
        !hasEarlierStart st.rows EventType.TCP_START e)) = st.rows := by
    refine List.filter_eq_self.mpr ?_
    intro a ha
    by_cases hT : a.eventType = .TCP_END
    · by_cases hold : a.timestamp < c
      · have hhas := (h a ha hold).1 hT
        simp [hT, hold, hhas]
      · simp [hold]
    · have hb : (a.eventType == EventType.TCP_END) = false := by simp [hT]
      simp [hb]
  rw [h1]
  have h2 : st.rows.filter (fun e =>
      !(e.eventType == EventType.UDP_END && decide (e.timestamp < c) &&
        !hasEarlierStart st.rows EventType.UDP_START e)) = st.rows := by
    refine List.filter_eq_self.mpr ?_
    intro a ha
    by_cases hU : a.eventType = .UDP_END
    · by_cases hold : a.timestamp < c
      · have hhas := (h a ha hold).2 hU
        simp [hU, hold, hhas]
      · simp [hold]
    · have hb : (a.eventType == EventType.UDP_END) = false := by simp [hU]
      simp [hb]
  rw [h2]

theorem tcpStartSel_not_compacted {c : Nat} {s : NetworkEvent}
    (h : tcpStartSel c s = true) : s.compacted = false := by
  simp only [tcpStartSel, Bool.and_eq_true, Bool.not_eq_true'] at h
  exact h.2

theorem udpStartSel_not_compacted {c : Nat} {s : NetworkEvent}
    (h : udpStartSel c s = true) : s.compacted = false := by
  simp only [udpStartSel, Bool.and_eq_true, Bool.not_eq_true'] at h
  exact h.2

theorem dnsQuerySel_not_compacted {c : Nat} {s : NetworkEvent}
    (h : dnsQuerySel c s = true) : s.compacted = false := by
  simp only [dnsQuerySel, Bool.and_eq_true, Bool.not_eq_true'] at h
  exact h.2

theorem not_synth_of_not_compacted {s : NetworkEvent} (h : s.compacted = false) :
    ¬Synth s := by
  intro hs
  rw [hs.1] at h
  cases h

theorem foldl_merge_post {m : NetworkEvent → NetworkEvent → Bool}
    {mk : NetworkEvent → NetworkEvent → NetworkEvent}
    (hmm : ∀ s x, Synth x → m s x = false) (hmk : ∀ s e, Synth (mk s e)) :
    ∀ (snap : List NetworkEvent) (st : DBState) (s : NetworkEvent),
      s.compacted = false → s ∈ snap →
      s ∈ (snap.foldl (mergeStep m mk) st).rows →
      findEnd m (snap.foldl (mergeStep m mk) st) s = none := by
  intro snap
  induction snap with
  | nil =>
    intro st s _ hmem _
    cases hmem
  | cons a rest ih =>
    intro st s hcomp hmem hfin
    rw [List.foldl_cons] at hfin ⊢
    rcases List.mem_cons.mp hmem with hsa | hsr
    · subst hsa
      cases he : findEnd m st s with
      | none =>
        have hstep : mergeStep m mk st s = st := by rw [mergeStep, he]
        rw [hstep] at hfin ⊢
        rw [findEnd_none_iff]
        intro x hx
        rcases foldl_mergeStep_grow hmk rest st x hx with hx' | hx'
        · exact (findEnd_none_iff m st s).mp he x hx'
        · exact hmm s x hx'
      | some e =>
        exfalso
        rcases foldl_mergeStep_grow hmk rest (mergeStep m mk st s) s hfin with hx | hx
        · rw [mergeStep, he] at hx
          rw [mem_deleteById, mem_deleteById] at hx
          exact hx.1.2 rfl
        · exact not_synth_of_not_compacted hcomp hx
    · exact ih (mergeStep m mk st a) s hcomp hsr hfin

theorem foldl_merge_id {m : NetworkEvent → NetworkEvent → Bool}
    {mk : NetworkEvent → NetworkEvent → NetworkEvent} :
    ∀ (snap : List NetworkEvent) (st : DBState),
      (∀ s ∈ snap, findEnd m st s = none) →
      snap.foldl (mergeStep m mk) st = st := by
  intro snap
  induction snap with
  | nil => intro st _; rfl
  | cons a rest ih =>
    intro st h
    rw [List.foldl_cons]
    have hstep : mergeStep m mk st a = st := by rw [mergeStep, h a (by simp)]
    rw [hstep]
    exact ih st (fun s hs => h s (by simp [hs]))

theorem pairMerge_noop {sel : NetworkEvent → Bool}
    {m : NetworkEvent → NetworkEvent → Bool}
    {mk : NetworkEvent → NetworkEvent → NetworkEvent} {st : DBState}
    (h : ∀ s ∈ st.rows, sel s = true → findEnd m st s = none) :
    pairMerge sel m mk st = st := by
  refine foldl_merge_id _ st ?_
  intro s hs
  have := List.mem_filter.mp hs
  exact h s this.1 this.2

theorem compact_grow_from_tcp (c w : Nat) (st : DBState) :
    ∀ x ∈ (compact c w st).rows, x ∈ (compactTCP c st).rows ∨ Synth x := by
  intro x hx
  simp only [compact] at hx
  have h4 := removeOrphanedEnds_mem hx
  have h3 : x ∈ (compactDNS c (compactUDP c (compactTCP c st))).rows := by
    by_cases hw : 0 < w
    · rw [if_pos hw] at h4
      exact deduplicateDNS_mem h4
    · rw [if_neg hw] at h4
      exact h4
  rcases pairMerge_grow mkCompactedDNS_synth h3 with h2 | hs
  · rcases pairMerge_grow mkCompactedUDP_synth h2 with h1 | hs
    · exact Or.inl h1
    · exact Or.inr hs
  · exact Or.inr hs

theorem compact_grow_from_udp (c w : Nat) (st : DBState) :
    ∀ x ∈ (compact c w st).rows,
      x ∈ (compactUDP c (compactTCP c st)).rows ∨ Synth x := by
  intro x hx
  simp only [compact] at hx
  have h4 := removeOrphanedEnds_mem hx
  have h3 : x ∈ (compactDNS c (compactUDP c (compactTCP c st))).rows := by
    by_cases hw : 0 < w
    · rw [if_pos hw] at h4
      exact deduplicateDNS_mem h4
    · rw [if_neg hw] at h4
      exact h4
  exact pairMerge_grow mkCompactedDNS_synth h3

theorem compact_grow_from_dns (c w : Nat) (st : DBState) :
    ∀ x ∈ (compact c w st).rows,
      x ∈ (compactDNS c (compactUDP c (compactTCP c st))).rows ∨ Synth x := by
  intro x hx
  simp only [compact] at hx
  have h4 := removeOrphanedEnds_mem hx
  by_cases hw : 0 < w
  · rw [if_pos hw] at h4
    exact Or.inl (deduplicateDNS_mem h4)
  · rw [if_neg hw] at h4
    exact Or.inl h4

theorem compact_tcp_nomatch (c w : Nat) (st : DBState) :
    ∀ s ∈ (compact c w st).rows, tcpStartSel c s = true →
      findEnd tcpEndMatch (compact c w st) s = none := by
  intro s hs hsel
  have hcomp := tcpStartSel_not_compacted hsel
  have hnsyn := not_synth_of_not_compacted hcomp
  have hB : s ∈ (compactTCP c st).rows :=
    (compact_grow_from_tcp c w st s hs).resolve_right hnsyn
  have hA : s ∈ st.rows :=
    (pairMerge_grow mkCompactedTCP_synth hB).resolve_right hnsyn
  have hsnap : s ∈ st.rows.filter (tcpStartSel c) :=
    List.mem_filter.mpr ⟨hA, hsel⟩
  have hnone : findEnd tcpEndMatch (compactTCP c st) s = none :=
    foldl_merge_post synth_not_tcpEndMatch mkCompactedTCP_synth _ st s hcomp hsnap hB
  exact findEnd_mono (compact_grow_from_tcp c w st)
    (fun x hx => synth_not_tcpEndMatch s x hx) hnone

theorem compact_udp_nomatch (c w : Nat) (st : DBState) :
    ∀ s ∈ (compact c w st).rows, udpStartSel c s = true →
      findEnd udpEndMatch (compact c w st) s = none := by
  intro s hs hsel
  have hcomp := udpStartSel_not_compacted hsel
  have hnsyn := not_synth_of_not_compacted hcomp
  have hC : s ∈ (compactUDP c (compactTCP c st)).rows :=
    (compact_grow_from_udp c w st s hs).resolve_right hnsyn
  have hB : s ∈ (compactTCP c st).rows :=
    (pairMerge_grow mkCompactedUDP_synth hC).resolve_right hnsyn
  have hsnap : s ∈ (compactTCP c st).rows.filter (udpStartSel c) :=
    List.mem_filter.mpr ⟨hB, hsel⟩
  have hnone : findEnd udpEndMatch (compactUDP c (compactTCP c st)) s = none :=
    foldl_merge_post synth_not_udpEndMatch mkCompactedUDP_synth _ _ s hcomp hsnap hC
  exact findEnd_mono (compact_grow_from_udp c w st)
    (fun x hx => synth_not_udpEndMatch s x hx) hnone

theorem compact_dns_nomatch (c w : Nat) (st : DBState) :
    ∀ s ∈ (compact c w st).rows, dnsQuerySel c s = true →
      findEnd dnsResponseMatch (compact c w st) s = none := by
  intro s hs hsel
  have hcomp := dnsQuerySel_not_compacted hsel
  have hnsyn := not_synth_of_not_compacted hcomp
  have hD : s ∈ (compactDNS c (compactUDP c (compactTCP c st))).rows :=
    (compact_grow_from_dns c w st s hs).resolve_right hnsyn
  have hC : s ∈ (compactUDP c (compactTCP c st)).rows :=
    (pairMerge_grow mkCompactedDNS_synth hD).resolve_right hnsyn
  have hsnap : s ∈ (compactUDP c (compactTCP c st)).rows.filter (dnsQuerySel c) :=
    List.mem_filter.mpr ⟨hC, hsel⟩
  have hnone : findEnd dnsResponseMatch
      (compactDNS c (compactUDP c (compactTCP c st))) s = none :=
    foldl_merge_post synth_not_dnsResponseMatch mkCompactedDNS_synth _ _ s hcomp hsnap hD
  exact findEnd_mono (compact_grow_from_dns c w st)
    (fun x hx => synth_not_dnsResponseMatch s x hx) hnone

theorem hasEarlierStart_spec {rows : List NetworkEvent} {t : EventType}
    {e : NetworkEvent} (h : hasEarlierStart rows t e = true) :
    ∃ s ∈ rows, s.eventType = t ∧ s.srcIP = e.srcIP ∧ s.srcPort = e.srcPort ∧
      s.dstIP = e.dstIP ∧ s.dstPort = e.dstPort ∧ s.timestamp < e.timestamp := by
  rw [hasEarlierStart, List.any_eq_true] at h
  obtain ⟨s, hs, hp⟩ := h
  simp only [Bool.and_eq_true, beq_iff_eq, decide_eq_true_eq] at hp
  obtain ⟨⟨⟨⟨⟨h1, h2⟩, h3⟩, h4⟩, h5⟩, h6⟩ := hp
  exact ⟨s, hs, h1, h2, h3, h4, h5, h6⟩

theorem hasEarlierStart_mono {rows rows' : List NetworkEvent} {t : EventType}
    {e : NetworkEvent} (hsub : ∀ x ∈ rows', x ∈ rows)
    (h : hasEarlierStart rows' t e = true) : hasEarlierStart rows t e = true := by
  rw [hasEarlierStart, List.any_eq_true] at h ⊢
  obtain ⟨s, hs, hp⟩ := h
  exact ⟨s, hsub s hs, hp⟩

theorem mem_removeOrphaned_of_not_end {c : Nat} {st : DBState} {s : NetworkEvent}
    (hs : s ∈ st.rows) (ht : s.eventType ≠ .TCP_END) (hu : s.eventType ≠ .UDP_END) :
    s ∈ (removeOrphanedEnds c st).rows := by
  simp only [removeOrphanedEnds]
  have hbt : (s.eventType == EventType.TCP_END) = false := by
    simp [ht]
  have hbu : (s.eventType == EventType.UDP_END) = false := by
    simp [hu]
  refine List.mem_filter.mpr ⟨List.mem_filter.mpr ⟨hs, ?_⟩, ?_⟩
  · simp [hbt]
  · simp [hbu]

theorem removeOrphaned_post (c : Nat) (st : DBState) :
    ∀ e ∈ (removeOrphanedEnds c st).rows, e.timestamp < c →
      (e.eventType = .TCP_END →
        ∃ s ∈ (removeOrphanedEnds c st).rows, s.eventType = .TCP_START ∧
          s.srcIP = e.srcIP ∧ s.srcPort = e.srcPort ∧ s.dstIP = e.dstIP ∧
          s.dstPort = e.dstPort ∧ s.timestamp < e.timestamp) ∧
      (e.eventType = .UDP_END →
        ∃ s ∈ (removeOrphanedEnds c st).rows, s.eventType = .UDP_START ∧
          s.srcIP = e.srcIP ∧ s.srcPort = e.srcPort ∧ s.dstIP = e.dstIP ∧
          s.dstPort = e.dstPort ∧ s.timestamp < e.timestamp) := by
  intro e he hold
  simp only [removeOrphanedEnds] at he
  have he1 := List.mem_of_mem_filter he
  have he2 := List.mem_filter.mp he1
  have he3 := List.mem_filter.mp he
  have hB : decide (e.timestamp < c) = true := decide_eq_true hold
  constructor
  · intro hT
    have hA : (e.eventType == EventType.TCP_END) = true := by simp [hT]
    have hpred := he2.2
    rw [hA, hB, Bool.true_and, Bool.true_and, Bool.not_not] at hpred
    obtain ⟨s, hs, h1, h2, h3, h4, h5, h6⟩ := hasEarlierStart_spec hpred
    refine ⟨s, ?_, h1, h2, h3, h4, h5, h6⟩
    exact mem_removeOrphaned_of_not_end hs (by rw [h1]; decide) (by rw [h1]; decide)
  · intro hU
    have hA : (e.eventType == EventType.UDP_END) = true := by simp [hU]
    have hpred := he3.2
    rw [hA, hB, Bool.true_and, Bool.true_and, Bool.not_not] at hpred
    obtain ⟨s, hs, h1, h2, h3, h4, h5, h6⟩ := hasEarlierStart_spec hpred
    refine ⟨s, ?_, h1, h2, h3, h4, h5, h6⟩
    refine List.mem_filter.mpr ⟨hs, ?_⟩
    have hbu : (s.eventType == EventType.UDP_END) = false := by
      simp [h1]
    simp [hbu]

theorem removeOrphaned_deletes (c : Nat) (st : DBState) :
    ∀ e : NetworkEvent, e.timestamp < c →
      ((e.eventType = .TCP_END ∧
          hasEarlierStart st.rows .TCP_START e = false) ∨
       (e.eventType = .UDP_END ∧
          hasEarlierStart st.rows .UDP_START e = false)) →
      e ∉ (removeOrphanedEnds c st).rows := by
  intro e hold hcase hmem
  simp only [removeOrphanedEnds] at hmem
  have hB : decide (e.timestamp < c) = true := decide_eq_true hold
  rcases hcase with ⟨hT, hhas⟩ | ⟨hU, hhas⟩
  · have hA : (e.eventType == EventType.TCP_END) = true := by simp [hT]
    have he1 := List.mem_of_mem_filter hmem
    have he2 := List.mem_filter.mp he1
    have hpred := he2.2
    rw [hA, hB, Bool.true_and, Bool.true_and, Bool.not_not, hhas] at hpred
    cases hpred
  · have hA : (e.eventType == EventType.UDP_END) = true := by simp [hU]
    have he3 := List.mem_filter.mp hmem
    have hpred := he3.2
    rw [hA, hB, Bool.true_and, Bool.true_and, Bool.not_not] at hpred
    have := hasEarlierStart_mono (fun x hx => List.mem_of_mem_filter hx) hpred
    rw [this] at hhas
    cases hhas

/-- A compacted store satisfies the orphan invariant in `hasEarlierStart`
form. -/
theorem compact_orphan_inv (c w : Nat) (st : DBState) :
    ∀ e ∈ (compact c w st).rows, e.timestamp < c →
      (e.eventType = .TCP_END →
        hasEarlierStart (compact c w st).rows .TCP_START e = true) ∧
      (e.eventType = .UDP_END →
        hasEarlierStart (compact c w st).rows .UDP_START e = true) := by
  intro e he hold
  have hpost : ∀ x ∈ (compact c w st).rows, x.timestamp < c →
      (x.eventType = .TCP_END →
        ∃ s ∈ (compact c w st).rows, s.eventType = .TCP_START ∧
          s.srcIP = x.srcIP ∧ s.srcPort = x.srcPort ∧ s.dstIP = x.dstIP ∧
          s.dstPort = x.dstPort ∧ s.timestamp < x.timestamp) ∧
      (x.eventType = .UDP_END →
        ∃ s ∈ (compact c w st).rows, s.eventType = .UDP_START ∧
          s.srcIP = x.srcIP ∧ s.srcPort = x.srcPort ∧ s.dstIP = x.dstIP ∧
          s.dstPort = x.dstPort ∧ s.timestamp < x.timestamp) := by
    simp only [compact]
    exact removeOrphaned_post c _
  constructor
  · intro hT
    obtain ⟨s, hs, hx1, hx2, hx3, hx4, hx5, hx6⟩ := (hpost e he hold).1 hT
    exact hasEarlierStart_of hs hx1 hx2 hx3 hx4 hx5 hx6
  · intro hU
    obtain ⟨s, hs, hx1, hx2, hx3, hx4, hx5, hx6⟩ := (hpost e he hold).2 hU
    exact hasEarlierStart_of hs hx1 hx2 hx3 hx4 hx5 hx6

/-- C5: compaction is idempotent: on a store with unique row ids below the
auto-increment counter, running compact a second time with the same cutoff
and the same dedupe window returns the state unchanged (the space-reclaim
VACUUM changes no rows and is outside the row-level model): the pair-merge
phases select only rows with compacted=false, so no row produced by the
first run is re-selected, no merge can fire again, the dedupe scan keeps
every survivor, and the orphan filter deletes nothing. -/
theorem C5_compact_idempotent (c w : Nat) (st : DBState)
    (hf : Fresh st) (hn : NodupIds st) :
    compact c w (compact c w st) = compact c w st := by
  have h1 : compactTCP c (compact c w st) = compact c w st :=
    pairMerge_noop (compact_tcp_nomatch c w st)
  have h2 : compactUDP c (compact c w st) = compact c w st :=
    pairMerge_noop (compact_udp_nomatch c w st)
  have h3 : compactDNS c (compact c w st) = compact c w st :=
    pairMerge_noop (compact_dns_nomatch c w st)
  have h5 : removeOrphanedEnds c (compact c w st) = compact c w st :=
    removeOrphaned_noop c _ (compact_orphan_inv c w st)
  show removeOrphanedEnds c
      (if 0 < w then
        deduplicateDNS c w
          (compactDNS c (compactUDP c (compactTCP c (compact c w st))))
      else compactDNS c (compactUDP c (compactTCP c (compact c w st)))) =
    compact c w st
  rw [h1, h2, h3]
  by_cases hw : 0 < w
  · have h4 : deduplicateDNS c w (compact c w st) = compact c w st :=
      deduplicateDNS_noop c w _ hw (compact_dns_pairwise c w st hw hf hn)
    rw [if_pos hw, h4, h5]
  · rw [if_neg hw, h5]

/-- Witness for C5: running compact twice on the ten-row DNS store changes
nothing the second time. -/
theorem C5_compact_idempotent_witness :
    compact 10000 5000 (compact 10000 5000
        { rows := (List.range 10).map (fun i =>
            { id := i + 1, timestamp := i * 1000, eventType := .DNS,
              dnsType := "QUERY", dnsQuery := "api.x" }),
          nextId := 11 }) =
      compact 10000 5000
        { rows := (List.range 10).map (fun i =>
            { id := i + 1, timestamp := i * 1000, eventType := .DNS,
              dnsType := "QUERY", dnsQuery := "api.x" }),
          nextId := 11 } :=
  C5_compact_idempotent 10000 5000 _ (by decide) (by decide)

/-- C4: after a compaction run every surviving TCP_END or UDP_END row older
than the cutoff has an earlier matching start row of the corresponding
start type on the same 4-tuple, still present in the store; and any END row
older than the cutoff with no such earlier start in the store is removed by
the orphan-removal phase. -/
theorem C4_orphaned_end_removal (c w : Nat) (st : DBState) :
    (∀ e ∈ (compact c w st).rows, e.timestamp < c →
      (e.eventType = .TCP_END →
        ∃ s ∈ (compact c w st).rows, s.eventType = .TCP_START ∧
          s.srcIP = e.srcIP ∧ s.srcPort = e.srcPort ∧ s.dstIP = e.dstIP ∧
          s.dstPort = e.dstPort ∧ s.timestamp < e.timestamp) ∧
      (e.eventType = .UDP_END →
        ∃ s ∈ (compact c w st).rows, s.eventType = .UDP_START ∧
          s.srcIP = e.srcIP ∧ s.srcPort = e.srcPort ∧ s.dstIP = e.dstIP ∧
          s.dstPort = e.dstPort ∧ s.timestamp < e.timestamp)) ∧
    (∀ (st' : DBState) (e : NetworkEvent), e.timestamp < c →
      ((e.eventType = .TCP_END ∧
          hasEarlierStart st'.rows .TCP_START e = false) ∨
       (e.eventType = .UDP_END ∧
          hasEarlierStart st'.rows .UDP_START e = false)) →
      e ∉ (removeOrphanedEnds c st').rows) := by
  constructor
  · simp only [compact]
    exact removeOrphaned_post c _
  · intro st' e hold hcase
    exact removeOrphaned_deletes c st' e hold hcase

/-- Witness for C4: a compacted UDP_START (skipped by the pair merge) and
its later UDP_END survive compaction, and the surviving END has its earlier
matching start present. -/
theorem C4_orphaned_end_removal_witness :
    ∃ s ∈ (compact 10000 0
        { rows :=
            [{ id := 1, timestamp := 0, eventType := .UDP_START,
               srcIP := "10.0.0.2", srcPort := 5353, dstIP := "1.1.1.1",
               dstPort := 53, compacted := true },
             { id := 2, timestamp := 1000, eventType := .UDP_END,
               srcIP := "10.0.0.2", srcPort := 5353, dstIP := "1.1.1.1",
               dstPort := 53 }],
          nextId := 3 }).rows,
      s.eventType = .UDP_START ∧
      s.srcIP = ({ id := 2, timestamp := 1000, eventType := .UDP_END,
                   srcIP := "10.0.0.2", srcPort := 5353, dstIP := "1.1.1.1",
                   dstPort := 53 } : NetworkEvent).srcIP ∧
      s.srcPort = 5353 ∧ s.dstIP = "1.1.1.1" ∧ s.dstPort = 53 ∧
      s.timestamp < 1000 :=
  ((C4_orphaned_end_removal 10000 0
      { rows :=
          [{ id := 1, timestamp := 0, eventType := .UDP_START,
             srcIP := "10.0.0.2", srcPort := 5353, dstIP := "1.1.1.1",
             dstPort := 53, compacted := true },
           { id := 2, timestamp := 1000, eventType := .UDP_END,
             srcIP := "10.0.0.2", srcPort := 5353, dstIP := "1.1.1.1",
             dstPort := 53 }],
        nextId := 3 }).1
    { id := 2, timestamp := 1000, eventType := .UDP_END, srcIP := "10.0.0.2",
      srcPort := 5353, dstIP := "1.1.1.1", dstPort := 53 }
    (by decide) (by decide)).2 rfl

/-- C10 counterexample: rows for one query at t=0s and t=4s and a
pre-existing merged COMPLETE row at t=8s, window 5s: an earlier DNS row on
the same query (t=4s) lies within the window of the COMPLETE row
(8s−4s < 5s), yet the COMPLETE row survives the run, because the t=4s row
was itself deleted and the scan anchors on the last kept row (t=0s). -/
theorem C10_counterexample :
    ((compact 100000 5000
        { rows :=
            [{ id := 1, timestamp := 0, eventType := .DNS, dnsType := "QUERY",
               dnsQuery := "api.x" },
             { id := 2, timestamp := 4000, eventType := .DNS, dnsType := "QUERY",
               dnsQuery := "api.x" },
             { id := 3, timestamp := 8000, eventType := .DNS,
               dnsType := "COMPLETE", dnsQuery := "api.x", compacted := true }],
          nextId := 4 }).rows.map (fun e => e.id)) = [1, 3] ∧
    (([{ id := 1, timestamp := 0, eventType := .DNS, dnsType := "QUERY",
         dnsQuery := "api.x" },
       { id := 2, timestamp := 4000, eventType := .DNS, dnsType := "QUERY",
         dnsQuery := "api.x" },
       { id := 3, timestamp := 8000, eventType := .DNS, dnsType := "COMPLETE",
         dnsQuery := "api.x", compacted := true }] :
        List NetworkEvent).any (fun e =>
          e.dnsQuery == "api.x" && decide (e.timestamp < 8000) &&
          decide (8000 - e.timestamp < 5000))) = true := by decide

/-- C10 amended: the dedupe phase selects rows by event_type DNS and
timestamp alone — dns_type, the compacted flag, interface and ip_version
play no part — so a merged COMPLETE row, including one created by the DNS
pair-merge phase earlier in the same run, is deleted as a duplicate
whenever the last KEPT earlier DNS row with the same dns_query lies within
the dedupe window: here the QUERY at t=5.5s merges with the RESPONSE at
t=6s into COMPLETE row id 4, which the dedupe phase then deletes against
the kept anchor at t=0s (5.5s < 6s window). -/
theorem C10_amended_dedupe_anchor :
    ((compactDNS 100000 (compactUDP 100000 (compactTCP 100000
        { rows :=
            [{ id := 1, timestamp := 0, eventType := .DNS, dnsType := "QUERY",
               dnsQuery := "api.x" },
             { id := 2, timestamp := 5500, eventType := .DNS, dnsType := "QUERY",
               dnsQuery := "api.x", interface := "wlan0" },
             { id := 3, timestamp := 6000, eventType := .DNS,
               dnsType := "RESPONSE", dnsQuery := "api.x",
               dnsAnswers := "1.2.3.4" }],
          nextId := 4 }))).rows.map (fun e => (e.id, e.dnsType, e.compacted))) =
      [(1, "QUERY", false), (4, "COMPLETE", true)] ∧
    ((compact 100000 6000
        { rows :=
            [{ id := 1, timestamp := 0, eventType := .DNS, dnsType := "QUERY",
               dnsQuery := "api.x" },
             { id := 2, timestamp := 5500, eventType := .DNS, dnsType := "QUERY",
               dnsQuery := "api.x", interface := "wlan0" },
             { id := 3, timestamp := 6000, eventType := .DNS,
               dnsType := "RESPONSE", dnsQuery := "api.x",
               dnsAnswers := "1.2.3.4" }],
          nextId := 4 }).rows.map (fun e => e.id)) = [1] := by decide

/-- C1: for a row S with event_type TCP_START, timestamp before the cutoff
and not already compacted, the TCP merge iteration behaves as specified:
the matching search succeeds exactly when some row E of type TCP_END or
TIMEOUT matches S's 4-tuple with timestamp strictly between S.timestamp and
S.timestamp + 24h; when it returns E, that E is the earliest such row, and
the iteration appends exactly one new row with event_type TCP,
compacted=true, timestamp S.timestamp, end_time E.timestamp, duration,
byte_count and reason from E, original_ids "S.id,E.id", copying S's
interface, ip_version, addresses, ports and hostname, and deletes rows S
and E; when no such E exists the store is unchanged. -/
theorem C1_tcp_pair_merge_step (c : Nat) (st : DBState) (S : NetworkEvent)
    (hfresh : Fresh st) (hS : S ∈ st.rows) (_hsel : tcpStartSel c S = true) :
    (findEnd tcpEndMatch st S = none ↔ ∀ E ∈ st.rows, tcpEndMatch S E = false) ∧
    (findEnd tcpEndMatch st S = none →
      mergeStep tcpEndMatch mkCompactedTCP st S = st) ∧
    (∀ E, findEnd tcpEndMatch st S = some E →
      E ∈ st.rows ∧ tcpEndMatch S E = true ∧
      (∀ F ∈ st.rows, tcpEndMatch S F = true → E.timestamp ≤ F.timestamp) ∧
      (mergeStep tcpEndMatch mkCompactedTCP st S).rows =
        ((st.rows.filter (fun x => x.id != S.id)).filter (fun x => x.id != E.id)) ++
          [{ id := st.nextId
             timestamp := S.timestamp
             endTime := E.timestamp
             eventType := .TCP
             interface := S.interface
             ipVersion := S.ipVersion
             srcIP := S.srcIP
             srcPort := S.srcPort
             dstIP := S.dstIP
             dstPort := S.dstPort
             hostname := S.hostname
             dnsAge := S.dnsAge
             duration := E.duration
             byteCount := E.byteCount
             reason := E.reason
             compacted := true
             originalIDs := mkOriginalIDs S.id E.id }]) := by
  refine ⟨findEnd_none_iff _ _ _, ?_, ?_⟩
  · intro h
    rw [mergeStep, h]
  · intro E hE
    obtain ⟨hmem, hmatch, hmin⟩ := findEnd_some hE
    refine ⟨hmem, hmatch, hmin, ?_⟩
    rw [mergeStep, hE]
    simp only [DBState.deleteById, DBState.create]
    rw [List.filter_append, List.filter_append]
    have hSid : S.id < st.nextId := hfresh S hS
    have hEid : E.id < st.nextId := hfresh E hmem
    have h1 := @filter_singleton_pos NetworkEvent (fun x => x.id != S.id)
      { mkCompactedTCP S E with id := st.nextId }
      (by show (st.nextId != S.id) = true; simp only [bne_iff_ne, ne_eq]; omega)
    have h2 := @filter_singleton_pos NetworkEvent (fun x => x.id != E.id)
      { mkCompactedTCP S E with id := st.nextId }
      (by show (st.nextId != E.id) = true; simp only [bne_iff_ne, ne_eq]; omega)
    rw [h1, h2]
    rfl

/-- Witness for C1 at the spec's SYN-FIN scenario: a TCP_START at t=0 and a
matching TCP_END at t=5s are merged into the compacted TCP row. -/
theorem C1_tcp_pair_merge_step_witness :
    (mergeStep tcpEndMatch mkCompactedTCP
        { rows :=
            [{ id := 1, timestamp := 0, eventType := .TCP_START, srcIP := "10.0.0.1",
               srcPort := 40000, dstIP := "8.8.8.8", dstPort := 443,
               hostname := "dns.google" },
             { id := 2, timestamp := 5000, eventType := .TCP_END, srcIP := "10.0.0.1",
               srcPort := 40000, dstIP := "8.8.8.8", dstPort := 443,
               duration := 5000, byteCount := 1500, reason := "FIN" }],
          nextId := 3 }
        { id := 1, timestamp := 0, eventType := .TCP_START, srcIP := "10.0.0.1",
          srcPort := 40000, dstIP := "8.8.8.8", dstPort := 443,
          hostname := "dns.google" }).rows =
      ((([{ id := 1, timestamp := 0, eventType := .TCP_START, srcIP := "10.0.0.1",
            srcPort := 40000, dstIP := "8.8.8.8", dstPort := 443,
            hostname := "dns.google" },
          { id := 2, timestamp := 5000, eventType := .TCP_END, srcIP := "10.0.0.1",
            srcPort := 40000, dstIP := "8.8.8.8", dstPort := 443,
            duration := 5000, byteCount := 1500, reason := "FIN" }] :
            List NetworkEvent).filter (fun x => x.id != 1)).filter
              (fun x => x.id != 2)) ++
        [{ id := 3, timestamp := 0, endTime := 5000, eventType := .TCP,
           interface := "", ipVersion := 0, srcIP := "10.0.0.1", srcPort := 40000,
           dstIP := "8.8.8.8", dstPort := 443, hostname := "dns.google",
           dnsAge := 0, duration := 5000, byteCount := 1500, reason := "FIN",
           compacted := true, originalIDs := mkOriginalIDs 1 2 }] := by
  have h := (C1_tcp_pair_merge_step 10000
    { rows :=
        [{ id := 1, timestamp := 0, eventType := .TCP_START, srcIP := "10.0.0.1",
           srcPort := 40000, dstIP := "8.8.8.8", dstPort := 443,
           hostname := "dns.google" },
         { id := 2, timestamp := 5000, eventType := .TCP_END, srcIP := "10.0.0.1",
           srcPort := 40000, dstIP := "8.8.8.8", dstPort := 443,
           duration := 5000, byteCount := 1500, reason := "FIN" }],
      nextId := 3 }
    { id := 1, timestamp := 0, eventType := .TCP_START, srcIP := "10.0.0.1",
      srcPort := 40000, dstIP := "8.8.8.8", dstPort := 443,
      hostname := "dns.google" }
    (by decide) (by decide) (by decide)).2.2
    { id := 2, timestamp := 5000, eventType := .TCP_END, srcIP := "10.0.0.1",
      srcPort := 40000, dstIP := "8.8.8.8", dstPort := 443,
      duration := 5000, byteCount := 1500, reason := "FIN" }
    (by decide)
  exact h.2.2.2

end NetWatcher
